import Mathlib

/-!
Shallow embedding of the semantic legal-change detector of
`app/services/document_comparison.py` (ContractX), together with proofs
about its behavior.  Pure Python functions are translated to Lean
functions; Python dicts are modeled as association lists with
insertion-order/overwrite semantics; Python floats appearing in the
comparison logic are modeled as rationals; the cryptographic digests
(`hashlib.sha256 … [:16]`, `hashlib.md5 … [:12]`) and the external
spaCy/embedding services are kept as explicit parameters, so every
theorem quantifies over their behavior.
-/

namespace ContractX

/-- Python's substring test `pat in s`. -/
def containsSub (s pat : String) : Bool :=
  s.data.tails.any (fun t => pat.data.isPrefixOf t)

/-- Python's `str.lower()` (ASCII case folding; the comparison logic of
the source only handles ASCII cue words). -/
def pyLower (s : String) : String :=
  ⟨s.data.map Char.toLower⟩

/-- Python's `str.upper()`. -/
def pyUpper (s : String) : String :=
  ⟨s.data.map Char.toUpper⟩

/-- Python's `str.strip()`. -/
def pyStrip (s : String) : String :=
  ⟨((s.data.dropWhile Char.isWhitespace).reverse.dropWhile Char.isWhitespace).reverse⟩

/-- Python's `s[:n]`. -/
def pyTake (s : String) (n : Nat) : String :=
  ⟨s.data.take n⟩

/-- Python's `str.split(sep)` for a one-character separator. -/
def pySplitChar (c : Char) (s : String) : List String :=
  go s.data []
where
  go : List Char → List Char → List String
    | [], cur => [⟨cur.reverse⟩]
    | a :: as, cur => if a = c then ⟨cur.reverse⟩ :: go as [] else go as (a :: cur)

/-- Python's `str.split()` with no argument: split on whitespace runs,
dropping empty fragments. -/
def pySplit (s : String) : List String :=
  go s.data []
where
  go : List Char → List Char → List String
    | [], cur => if cur.isEmpty then [] else [⟨cur.reverse⟩]
    | a :: as, cur =>
      if a.isWhitespace then
        if cur.isEmpty then go as [] else ⟨cur.reverse⟩ :: go as []
      else go as (a :: cur)

/-! Rational constants for the float literals of the source, written in
lowest terms as explicit numerator/denominator pairs (never with `/`,
whose `Rat` normalization does not evaluate under the kernel). -/

/-- 0.88, the tier-2 similarity threshold. -/
def rat_0_88 : ℚ := ⟨22, 25, by norm_num, by norm_num⟩

/-- 0.8 -/
def rat_0_8 : ℚ := ⟨4, 5, by norm_num, by norm_num⟩

/-- 0.3 -/
def rat_0_3 : ℚ := ⟨3, 10, by norm_num, by norm_num⟩

/-- 0.4 -/
def rat_0_4 : ℚ := ⟨2, 5, by norm_num, by norm_num⟩

/-- 0.5 -/
def rat_0_5 : ℚ := ⟨1, 2, by norm_num, by norm_num⟩

/-- 0.7 -/
def rat_0_7 : ℚ := ⟨7, 10, by norm_num, by norm_num⟩

/-- 0.75 -/
def rat_0_75 : ℚ := ⟨3, 4, by norm_num, by norm_num⟩

/-- 0.85 -/
def rat_0_85 : ℚ := ⟨17, 20, by norm_num, by norm_num⟩

/-- Removal of the characters in `cs` from `s`, modeling
`re.sub(r'[…]', '', s)` for a character class. -/
def stripChars (cs : List Char) (s : String) : String :=
  ⟨s.data.filter (fun c => ¬ cs.contains c)⟩

/-- Lexicographic code-point comparison of char lists — the order
Python's `sorted` uses on strings. -/
def chLe : List Char → List Char → Bool
  | [], _ => true
  | _ :: _, [] => false
  | a :: as, b :: bs =>
    if a.toNat < b.toNat then true
    else if b.toNat < a.toNat then false
    else chLe as bs

theorem chLe_total : ∀ as bs : List Char, chLe as bs = true ∨ chLe bs as = true
  | [], _ => Or.inl rfl
  | _ :: _, [] => Or.inr rfl
  | a :: as, b :: bs => by
    by_cases h1 : a.toNat < b.toNat
    · left; simp [chLe, h1]
    · by_cases h2 : b.toNat < a.toNat
      · right; simp [chLe, h1, h2]
      · rcases chLe_total as bs with h | h
        · left; simp [chLe, h1, h2, h]
        · right; simp [chLe, h1, h2, h]

theorem chLe_antisymm : ∀ as bs : List Char,
    chLe as bs = true → chLe bs as = true → as = bs
  | [], [], _, _ => rfl
  | [], _ :: _, _, h => by cases h
  | _ :: _, [], h, _ => by cases h
  | a :: as, b :: bs, h1, h2 => by
    by_cases hab : a.toNat < b.toNat
    · have hba : ¬ b.toNat < a.toNat := Nat.lt_asymm hab
      simp [chLe, hba, hab] at h2
    · by_cases hba : b.toNat < a.toNat
      · simp [chLe, hab, hba] at h1
      · have heq : a.toNat = b.toNat :=
          Nat.le_antisymm (Nat.not_lt.mp hba) (Nat.not_lt.mp hab)
        have hco : a = b := Char.ext (UInt32.ext heq)
        subst hco
        simp only [chLe, Nat.lt_irrefl, if_false] at h1 h2
        rw [chLe_antisymm as bs h1 h2]

theorem chLe_trans : ∀ as bs cs : List Char,
    chLe as bs = true → chLe bs cs = true → chLe as cs = true
  | [], _, _, _, _ => rfl
  | _ :: _, [], _, h, _ => by cases h
  | _ :: _, _ :: _, [], _, h => by cases h
  | a :: as, b :: bs, c :: cs, h1, h2 => by
    by_cases hab : a.toNat < b.toNat <;> by_cases hbc : b.toNat < c.toNat
    · have hac : a.toNat < c.toNat := Nat.lt_trans hab hbc
      simp [chLe, hac]
    · by_cases hcb : c.toNat < b.toNat
      · simp [chLe, hbc, hcb] at h2
      · have heqbc : b.toNat = c.toNat :=
          Nat.le_antisymm (Nat.not_lt.mp hcb) (Nat.not_lt.mp hbc)
        have hac : a.toNat < c.toNat := heqbc ▸ hab
        simp [chLe, hac]
    · by_cases hba : b.toNat < a.toNat
      · simp [chLe, hab, hba] at h1
      · have heqab : a.toNat = b.toNat :=
          Nat.le_antisymm (Nat.not_lt.mp hba) (Nat.not_lt.mp hab)
        have hac : a.toNat < c.toNat := heqab ▸ hbc
        simp [chLe, hac]
    · by_cases hba : b.toNat < a.toNat
      · simp [chLe, hab, hba] at h1
      · by_cases hcb : c.toNat < b.toNat
        · simp [chLe, hbc, hcb] at h2
        · have heqab : a.toNat = b.toNat :=
            Nat.le_antisymm (Nat.not_lt.mp hba) (Nat.not_lt.mp hab)
          have heqbc : b.toNat = c.toNat :=
            Nat.le_antisymm (Nat.not_lt.mp hcb) (Nat.not_lt.mp hbc)
          have hac1 : ¬ a.toNat < c.toNat := by rw [heqab, heqbc]; exact Nat.lt_irrefl _
          have hac2 : ¬ c.toNat < a.toNat := by rw [heqab, heqbc]; exact Nat.lt_irrefl _
          simp only [chLe, hab, hba, hbc, hcb, if_false] at h1 h2
          simp only [chLe, hac1, hac2, if_false]
          exact chLe_trans as bs cs h1 h2

/-- Python's string comparison `a <= b` (code-point lexicographic). -/
def strLeProp (a b : String) : Prop :=
  chLe a.data b.data = true

instance : DecidableRel strLeProp :=
  fun a b => Bool.decEq (chLe a.data b.data) true

instance : IsTotal String strLeProp :=
  ⟨fun a b => chLe_total a.data b.data⟩

instance : IsTrans String strLeProp :=
  ⟨fun a b c => chLe_trans a.data b.data c.data⟩

instance : IsAntisymm String strLeProp :=
  ⟨fun a b h1 h2 => by
    cases a with
    | mk da => cases b with
      | mk db => exact congrArg String.mk (chLe_antisymm da db h1 h2)⟩

/-- Python's `sorted` on a list of strings (ascending lexicographic order
on code points). -/
def sortStrings (l : List String) : List String :=
  l.insertionSort strLeProp

theorem sortStrings_perm {l₁ l₂ : List String} (h : l₁.Perm l₂) :
    sortStrings l₁ = sortStrings l₂ :=
  List.eq_of_perm_of_sorted
    ((List.perm_insertionSort _ l₁).trans (h.trans (List.perm_insertionSort _ l₂).symm))
    (List.sorted_insertionSort _ l₁) (List.sorted_insertionSort _ l₂)

/-! ### Constant lexicons (ENHANCEMENTS 1–6 of the source)

Python `set` literals are modeled as lists in the order of the source
literal; only membership and set differences are observed by the
comparison logic. -/

def LEGAL_MODALS : List String :=
  ["shall", "shall not", "must", "must not", "will", "will not",
   "may", "may not", "can", "cannot", "should", "should not",
   "entitled to", "has the right", "obligated to", "required to",
   "permitted to", "authorized to", "prohibited from"]

def NOISE_INDICATORS : List String :=
  ["page", "section", "article", "clause", "table", "figure",
   "appendix", "schedule", "exhibit", "annex", "whereas",
   "definitions", "interpretation", "heading", "title"]

def INVALID_ACTIONS : List String :=
  ["PERFORM", "DO", "EXECUTE", "ACT", "CONDUCT", "CARRY",
   "MAKE", "TAKE", "HAVE", "BE", "GET", "GO"]

def INVALID_OBJECTS : List String :=
  ["OBLIGATION", "DUTY", "RESPONSIBILITY", "REQUIREMENT",
   "RIGHT", "PERMISSION", "THING", "MATTER", "ITEM",
   "PART", "SECTION", "CLAUSE", "PROVISION"]

def CONDITION_STOPWORDS : List String :=
  ["the", "a", "an", "and", "or", "but", "in", "on", "at", "to", "for",
   "of", "with", "by", "from", "as", "is", "was", "are", "were", "be",
   "been", "being", "have", "has", "had", "do", "does", "did", "will",
   "would", "should", "could", "may", "might", "must", "can", "shall"]

def WEAKENING_QUALIFIERS : List String :=
  ["reasonable", "commercially reasonable", "reasonably", "appropriate",
   "adequate", "sufficient", "best efforts", "reasonable efforts",
   "commercially reasonable efforts", "practicable", "feasible",
   "where practicable", "where feasible", "to the extent",
   "as appropriate", "as needed", "as necessary", "good faith"]

def STRENGTHENING_QUALIFIERS : List String :=
  ["all", "any", "each", "every", "complete", "full", "entire",
   "comprehensive", "absolute", "strict", "maximum", "immediate",
   "without limitation", "in all cases", "under all circumstances"]

def IGNORE_KEYS : List String :=
  ["summary", "entities_summary", "alerts", "sections_count",
   "metadata", "generated_summary", "document_summary",
   "extraction_metadata", "processing_info"]

/-! ### Enumerations -/

inductive Modality where
  | OBLIGATION | PERMISSION | PROHIBITION | RIGHT | CONDITION
deriving DecidableEq, Repr

/-- The `.value` string of the `Modality` enum. -/
def Modality.value : Modality → String
  | .OBLIGATION => "OBLIGATION"
  | .PERMISSION => "PERMISSION"
  | .PROHIBITION => "PROHIBITION"
  | .RIGHT => "RIGHT"
  | .CONDITION => "CONDITION"

inductive ImpactLevel where
  | NONE | LOW | MEDIUM | HIGH | CRITICAL
deriving DecidableEq, Repr

def ImpactLevel.value : ImpactLevel → String
  | .NONE => "NONE"
  | .LOW => "LOW"
  | .MEDIUM => "MEDIUM"
  | .HIGH => "HIGH"
  | .CRITICAL => "CRITICAL"

inductive ChangeType where
  | NO_IMPACT_CHANGE | STRUCTURAL_CHANGE | OBLIGATION_CHANGE | SCOPE_CHANGE
  | PARTY_CHANGE | CONDITION_CHANGE | TIMING_CHANGE | RISK_CHANGE
  | EXCEPTION_CHANGE | NEW_CLAUSE | REMOVED_CLAUSE | LANGUAGE_EQUIVALENT
deriving DecidableEq, Repr

def ChangeType.value : ChangeType → String
  | .NO_IMPACT_CHANGE => "NO_IMPACT_CHANGE"
  | .STRUCTURAL_CHANGE => "STRUCTURAL_CHANGE"
  | .OBLIGATION_CHANGE => "OBLIGATION_CHANGE"
  | .SCOPE_CHANGE => "SCOPE_CHANGE"
  | .PARTY_CHANGE => "PARTY_CHANGE"
  | .CONDITION_CHANGE => "CONDITION_CHANGE"
  | .TIMING_CHANGE => "TIMING_CHANGE"
  | .RISK_CHANGE => "RISK_CHANGE"
  | .EXCEPTION_CHANGE => "EXCEPTION_CHANGE"
  | .NEW_CLAUSE => "NEW_CLAUSE"
  | .REMOVED_CLAUSE => "REMOVED_CLAUSE"
  | .LANGUAGE_EQUIVALENT => "LANGUAGE_EQUIVALENT"

/-! ### Normalization helpers -/

/-- The truncated cryptographic digests used by the source
(`hashlib.sha256(·).hexdigest()[:16]` and `hashlib.md5(·).hexdigest()[:12]`),
kept as parameters: every theorem holds for an arbitrary digest. -/
structure Digests where
  sha256hex16 : String → String
  md5hex12 : String → String

/-- `normalize_condition` (ENHANCEMENT 4): lowercase, strip punctuation,
drop stopwords, sort tokens, join, then md5-digest truncated to 12 chars. -/
def normalize_condition (d : Digests) (condition : String) : String :=
  let c := pyStrip (pyLower condition)
  let c := stripChars [',', ';', ':', '.', '!', '?'] c
  let tokens := (pySplit c).filter (fun t => ¬ CONDITION_STOPWORDS.contains t)
  d.md5hex12 (String.intercalate " " (sortStrings tokens))

/-- `normalize_exception` (ENHANCEMENT 6): like the condition
normalizer but without the final digest (and without `!?` in the stripped
punctuation class). -/
def normalize_exception (exception : String) : String :=
  let e := pyStrip (pyLower exception)
  let e := stripChars [',', ';', ':', '.'] e
  let tokens := (pySplit e).filter (fun t => ¬ CONDITION_STOPWORDS.contains t)
  String.intercalate " " (sortStrings tokens)

/-- The qualifier dictionary returned by `extract_qualifiers`. -/
structure Qualifiers where
  weakening : List String
  strengthening : List String
deriving DecidableEq, Repr

/-- `extract_qualifiers` (ENHANCEMENT 5): substring scan of the fixed
weakening/strengthening lexicons over the lowercased text. -/
def extract_qualifiers (text : String) : Qualifiers :=
  let tl := pyLower text
  { weakening := WEAKENING_QUALIFIERS.filter (fun q => containsSub tl q)
    strengthening := STRENGTHENING_QUALIFIERS.filter (fun q => containsSub tl q) }

/-- List-valued set difference `set a - set b` (only membership and
cardinality of the result are observed by the comparison logic; the
iteration order of a Python `set` is unspecified, so we use the order of
`a`). -/
def listDiff (a b : List String) : List String :=
  a.filter (fun x => ¬ b.contains x)

/-- `detect_qualifier_change` (ENHANCEMENT 5): weakened/strengthened
obligation detection on the qualifier lexicons of the two original
texts.  Returns `(changed, description)`. -/
def detect_qualifier_change (quals1 quals2 : Qualifiers) : Bool × String :=
  let new_weakening := listDiff quals2.weakening quals1.weakening
  let removed_strengthening := listDiff quals1.strengthening quals2.strengthening
  if new_weakening ≠ [] ∨ removed_strengthening ≠ [] then
    let details :=
      (if new_weakening ≠ [] then
        ["Added weakening: " ++ String.intercalate ", " new_weakening] else []) ++
      (if removed_strengthening ≠ [] then
        ["Removed strengthening: " ++ String.intercalate ", " removed_strengthening] else [])
    (true, String.intercalate " | " details)
  else
    let new_strengthening := listDiff quals2.strengthening quals1.strengthening
    let removed_weakening := listDiff quals1.weakening quals2.weakening
    if new_strengthening ≠ [] ∨ removed_weakening ≠ [] then
      let details :=
        (if new_strengthening ≠ [] then
          ["Added strengthening: " ++ String.intercalate ", " new_strengthening] else []) ++
        (if removed_weakening ≠ [] then
          ["Removed weakening: " ++ String.intercalate ", " removed_weakening] else [])
      (true, String.intercalate " | " details)
    else (false, "")

/-- Insertion into a Python dict modeled as an association list:
overwrite an existing binding in place, else append. -/
def upsert (m : List (String × String)) (k v : String) : List (String × String) :=
  if m.any (fun p => p.1 == k) then
    m.map (fun p => if p.1 == k then (k, v) else p)
  else m ++ [(k, v)]

/-- The dict `{normalize_exception(e): e for e in exceptions}`. -/
def normDict (exceptions : List String) : List (String × String) :=
  exceptions.foldl (fun m e => upsert m (normalize_exception e) e) []

/-- Result dictionary of `compare_exceptions`. -/
structure ExceptionAnalysis where
  changed : Bool
  added : List String
  removed : List String
  impact : String
  description : String
deriving DecidableEq, Repr

/-- `compare_exceptions` (ENHANCEMENT 6): deep exception comparison with
impact analysis — removed exceptions broaden the obligation (CRITICAL),
added exceptions narrow it (HIGH). -/
def compare_exceptions (exceptions1 exceptions2 : List String) : ExceptionAnalysis :=
  let norm1 := normDict exceptions1
  let norm2 := normDict exceptions2
  let added := (norm2.filter (fun p => ¬ norm1.any (fun q => q.1 == p.1))).map (fun p => p.2)
  let removed := (norm1.filter (fun p => ¬ norm2.any (fun q => q.1 == p.1))).map (fun p => p.2)
  let impact := if removed.length > 0 then "CRITICAL"
    else if added.length > 0 then "HIGH" else "NONE"
  { changed := added.length > 0 ∨ removed.length > 0
    added := added
    removed := removed
    impact := impact
    description := "Exceptions changed: +" ++ toString added.length ++ " added, " ++
      toString removed.length ++ " removed" }

/-! ### `LegalNormalizer` -/

def ACTION_MAP : List (String × String) :=
  [("provide", "PROVIDE"), ("furnish", "PROVIDE"), ("supply", "PROVIDE"),
   ("protect", "PROTECT"), ("safeguard", "PROTECT"), ("secure", "PROTECT"),
   ("notify", "NOTIFY"), ("inform", "NOTIFY"), ("advise", "NOTIFY"),
   ("pay", "PAY"), ("compensate", "PAY"), ("remunerate", "PAY"),
   ("maintain", "MAINTAIN"), ("keep", "MAINTAIN"), ("preserve", "MAINTAIN"),
   ("comply", "COMPLY"), ("adhere", "COMPLY"), ("conform", "COMPLY"),
   ("deliver", "DELIVER"), ("transfer", "DELIVER"), ("convey", "DELIVER"),
   ("ensure", "ENSURE"), ("guarantee", "ENSURE"), ("warrant", "ENSURE"),
   ("terminate", "TERMINATE"), ("end", "TERMINATE"), ("cancel", "TERMINATE"),
   ("indemnify", "INDEMNIFY"), ("hold harmless", "INDEMNIFY")]

/-- `LegalNormalizer.MODALITY_MAP`, as an association list in the
insertion order of the Python dict literal (the order is significant:
`extract_modality` scans it front to back). -/
def MODALITY_MAP : List (String × Modality) :=
  [("shall", .OBLIGATION), ("must", .OBLIGATION), ("will", .OBLIGATION),
   ("may", .PERMISSION), ("can", .PERMISSION),
   ("shall not", .PROHIBITION), ("must not", .PROHIBITION), ("may not", .PROHIBITION),
   ("entitled to", .RIGHT), ("has the right", .RIGHT)]

/-- `LegalNormalizer.extract_modality`: first entry of `MODALITY_MAP`
whose phrase occurs as a substring of the lowercased text; defaults to
OBLIGATION. -/
def extract_modality (text : String) : Modality :=
  let tl := pyLower text
  match MODALITY_MAP.find? (fun p => containsSub tl p.1) with
  | some p => p.2
  | none => .OBLIGATION

/-- `LegalNormalizer.normalize_action`: closed-vocabulary verb map, or
the uppercased raw verb when unmapped. -/
def normalize_action (action : String) : String :=
  let a := pyStrip (pyLower action)
  match ACTION_MAP.find? (fun p => p.1 == a) with
  | some p => p.2
  | none => pyUpper a

/-! ### `CanonicalLegalObject` -/

structure CanonicalLegalObject where
  clause_uid : String
  party : String
  role : String
  action : String
  object : String
  law : Option String
  modality : Modality
  conditions : List String
  normalized_conditions : List String
  timebound : Option String
  exceptions : List String
  normalized_exceptions : List String
  qualifiers : Qualifiers
  original_text : String
  intent_hash : String
  section_id : String
deriving DecidableEq, Repr

/-- `CanonicalLegalObject._generate_intent_hash`: digest of the joined
normalized components (party, action, object, modality, sorted
normalized conditions, sorted normalized exceptions, timebound). -/
def generate_intent_hash (d : Digests) (party action object : String)
    (modality : Modality) (normalized_conditions normalized_exceptions : List String)
    (timebound : Option String) : String :=
  let components : List String :=
    [pyLower party, pyLower action, pyLower object, modality.value,
     String.intercalate "|" (sortStrings normalized_conditions),
     String.intercalate "|" (sortStrings normalized_exceptions),
     timebound.getD ""]
  d.sha256hex16 (String.intercalate "|" components)

/-- `CanonicalLegalObject._extract_section_id`: leading dot-separated
segment of the clause uid. -/
def extract_section_id (clause_uid : String) : String :=
  (pySplitChar '.' clause_uid).headD ""

/-- Construction of a `CanonicalLegalObject`, including the derived
fields computed by `__post_init__` (normalized conditions/exceptions,
qualifiers, intent hash, section id). -/
def CanonicalLegalObject.build (d : Digests) (clause_uid party role action object : String)
    (law : Option String) (modality : Modality) (conditions exceptions : List String)
    (timebound : Option String) (original_text : String) : CanonicalLegalObject :=
  let normalized_conditions := conditions.map (normalize_condition d)
  let normalized_exceptions := exceptions.map normalize_exception
  { clause_uid := clause_uid
    party := party
    role := role
    action := action
    object := object
    law := law
    modality := modality
    conditions := conditions
    normalized_conditions := normalized_conditions
    timebound := timebound
    exceptions := exceptions
    normalized_exceptions := normalized_exceptions
    qualifiers := extract_qualifiers original_text
    original_text := original_text
    intent_hash := generate_intent_hash d party action object modality
      normalized_conditions normalized_exceptions timebound
    section_id := extract_section_id clause_uid }

/-- `is_valid_clo` (ENHANCEMENT 2): rejection of placeholder/noise CLOs
before they can reach the matcher. -/
def is_valid_clo (clo : CanonicalLegalObject) : Bool :=
  if INVALID_ACTIONS.contains clo.action then false
  else if INVALID_OBJECTS.contains (pyUpper clo.object) then false
  else if (pyStrip clo.object).length < 3 then false
  else if clo.party = "PARTY" ∧
      (INVALID_ACTIONS.contains clo.action ∨ INVALID_OBJECTS.contains (pyUpper clo.object)) then
    false
  else true

/-- `is_legal_clause` (ENHANCEMENT 1).  The final spaCy verb check
(including its `try/except` fallback, which accepts the clause when the
NLP model raises) is the injected `hasVerbOK`. -/
def is_legal_clause (hasVerbOK : String → Bool) (text : String) : Bool :=
  let tl := pyLower text
  if ¬ LEGAL_MODALS.any (fun m => containsSub tl m) then false
  else if (pyStrip text).length < 30 then false
  else if NOISE_INDICATORS.any (fun n => containsSub (pyTake tl 50) n) then false
  else hasVerbOK text

/-! ### `SemanticGate` -/

/-- `SemanticGate.is_material_change`: fixed-priority materiality
classification of a matched pair.  (The source's nested exception test —
normalized lists differ, and the deep analysis reports a change — is
written as a single conjunction.) -/
def is_material_change (c1 c2 : CanonicalLegalObject) : Bool × ChangeType :=
  if c1.party ≠ c2.party then (true, .PARTY_CHANGE)
  else if c1.modality ≠ c2.modality then (true, .OBLIGATION_CHANGE)
  else if c1.normalized_exceptions ≠ c2.normalized_exceptions ∧
      (compare_exceptions c1.exceptions c2.exceptions).changed then
    (true, .EXCEPTION_CHANGE)
  else if (detect_qualifier_change c1.qualifiers c2.qualifiers).1 then (true, .RISK_CHANGE)
  else if c1.action ≠ c2.action ∨ c1.object ≠ c2.object then (true, .SCOPE_CHANGE)
  else if c1.normalized_conditions ≠ c2.normalized_conditions then (true, .CONDITION_CHANGE)
  else if c1.timebound ≠ c2.timebound then (true, .TIMING_CHANGE)
  else (false, .NO_IMPACT_CHANGE)

/-- `SemanticGate.detect_language_equivalence`: identical intent hash
with different surface wording. -/
def detect_language_equivalence (c1 c2 : CanonicalLegalObject) : Bool :=
  c1.intent_hash == c2.intent_hash && c1.original_text != c2.original_text

/-! ### `ImpactAssessor` -/

/-- `ImpactAssessor.assess_impact`.  Note that for a matched pair the
caller passes the *first* document's CLO as `clo`. -/
def assess_impact (change_type : ChangeType) (clo : CanonicalLegalObject) : ImpactLevel :=
  if change_type = .NO_IMPACT_CHANGE ∨ change_type = .LANGUAGE_EQUIVALENT then .NONE
  else if change_type = .STRUCTURAL_CHANGE then .LOW
  else if change_type = .PARTY_CHANGE then .CRITICAL
  else if change_type = .OBLIGATION_CHANGE then
    if clo.modality = .OBLIGATION then .HIGH else .MEDIUM
  else if change_type = .EXCEPTION_CHANGE then .CRITICAL
  else if change_type = .RISK_CHANGE then .HIGH
  else if change_type = .TIMING_CHANGE ∨ change_type = .CONDITION_CHANGE then .HIGH
  else if change_type = .SCOPE_CHANGE then .MEDIUM
  else if change_type = .NEW_CLAUSE ∨ change_type = .REMOVED_CLAUSE then .HIGH
  else .LOW

/-- `ImpactAssessor.calculate_confidence`: multiplicative discounting of
an initial confidence of 1 (floats modeled as rationals). -/
def calculate_confidence (c1 c2 : CanonicalLegalObject) : ℚ :=
  let confidence : ℚ := 1
  let confidence := if c1.party = "PARTY" ∨ c2.party = "PARTY"
    then confidence * rat_0_4 else confidence
  let confidence := if INVALID_ACTIONS.contains c1.action ∨ INVALID_ACTIONS.contains c2.action
    then confidence * rat_0_4 else confidence
  let confidence := if c1.object.length < 5 ∨ c2.object.length < 5
    then confidence * rat_0_3 else confidence
  let confidence := if INVALID_OBJECTS.contains (pyUpper c1.object) ∨
      INVALID_OBJECTS.contains (pyUpper c2.object)
    then confidence * rat_0_3 else confidence
  let confidence := if c1.original_text.length < 20 ∨ c2.original_text.length < 20
    then confidence * rat_0_7 else confidence
  confidence

/-- `ImpactAssessor.requires_human_review`. -/
def requires_human_review (impact : ImpactLevel) (confidence : ℚ) : Bool :=
  ((impact = .HIGH ∨ impact = .CRITICAL) ∧ confidence ≤ rat_0_75) ∨
    (impact = .CRITICAL ∧ confidence ≤ rat_0_85)

/-! ### `LegalChange` and descriptions -/

structure LegalChange where
  type : ChangeType
  path : String
  from_clo : Option CanonicalLegalObject
  to_clo : Option CanonicalLegalObject
  description : String
  impact : ImpactLevel
  confidence : ℚ
  requires_human_review : Bool
deriving DecidableEq, Repr

/-- `LegalDocumentComparator._generate_description`. -/
def generate_description (change_type : ChangeType) (c1 c2 : CanonicalLegalObject) : String :=
  if change_type = .PARTY_CHANGE then
    "Party changed from " ++ c1.party ++ " to " ++ c2.party
  else if change_type = .OBLIGATION_CHANGE then
    "Modality changed: " ++ c1.modality.value ++ " → " ++ c2.modality.value
  else if change_type = .EXCEPTION_CHANGE then
    (compare_exceptions c1.exceptions c2.exceptions).description
  else if change_type = .RISK_CHANGE then
    "Obligation strength changed: " ++ (detect_qualifier_change c1.qualifiers c2.qualifiers).2
  else if change_type = .SCOPE_CHANGE then
    if c1.action ≠ c2.action then "Action changed: " ++ c1.action ++ " → " ++ c2.action
    else if c1.object ≠ c2.object then "Scope changed: " ++ c1.object ++ " → " ++ c2.object
    else "Scope modified"
  else if change_type = .TIMING_CHANGE then
    "Timing changed: " ++ (toString (repr c1.timebound)) ++ " → " ++ (toString (repr c2.timebound))
  else if change_type = .CONDITION_CHANGE then "Conditions modified"
  else "Legal change detected"

/-- The STRUCTURAL_CHANGE record emitted by `compare` for a
hash-matched pair whose section moved. -/
def structuralChange (c1 c2 : CanonicalLegalObject) : LegalChange :=
  { type := .STRUCTURAL_CHANGE
    path := c1.clause_uid
    from_clo := some c1
    to_clo := some c2
    description := "Clause moved from section " ++ c1.section_id ++ " to " ++ c2.section_id
    impact := .LOW
    confidence := 1
    requires_human_review := false }

/-- The LANGUAGE_EQUIVALENT record emitted by `compare` for a matched
pair that the semantic gate recognizes as a rewording/translation. -/
def languageEquivalentChange (c1 c2 : CanonicalLegalObject) : LegalChange :=
  { type := .LANGUAGE_EQUIVALENT
    path := c1.clause_uid
    from_clo := some c1
    to_clo := some c2
    description := "Translation - no legal change"
    impact := .NONE
    confidence := 1
    requires_human_review := false }

/-- The LegalChange built for a material matched pair: impact is
assessed on the *first* CLO, confidence on both. -/
def materialChange (c1 c2 : CanonicalLegalObject) : LegalChange :=
  { type := (is_material_change c1 c2).2
    path := c1.clause_uid
    from_clo := some c1
    to_clo := some c2
    description := generate_description (is_material_change c1 c2).2 c1 c2
    impact := assess_impact (is_material_change c1 c2).2 c1
    confidence := calculate_confidence c1 c2
    requires_human_review :=
      requires_human_review (assess_impact (is_material_change c1 c2).2 c1)
        (calculate_confidence c1 c2) }

/-- Body of the matched-pair loop of `compare`: language equivalence
first, then materiality, impact, confidence and review flags; `none`
when the pair is non-material (nothing appended). -/
def analyzeMatchedPair (c1 c2 : CanonicalLegalObject) : Option LegalChange :=
  if detect_language_equivalence c1 c2 then
    some (languageEquivalentChange c1 c2)
  else if (is_material_change c1 c2).1 then
    some (materialChange c1 c2)
  else none

/-- The NEW_CLAUSE record built by `compare` for an unmatched
document-2 CLO. -/
def newClauseChange (clo : CanonicalLegalObject) : LegalChange :=
  let confidence : ℚ :=
    if clo.party = "PARTY" ∧ INVALID_ACTIONS.contains clo.action then rat_0_3 else rat_0_8
  { type := .NEW_CLAUSE
    path := clo.clause_uid
    from_clo := none
    to_clo := some clo
    description := "New " ++ pyLower clo.modality.value ++ ": " ++ clo.action ++ " " ++ clo.object
    impact := .HIGH
    confidence := confidence
    requires_human_review := confidence < rat_0_5 }

/-- The REMOVED_CLAUSE record built by `compare` for an unmatched
document-1 CLO. -/
def removedClauseChange (clo : CanonicalLegalObject) : LegalChange :=
  let confidence : ℚ :=
    if clo.party = "PARTY" ∧ INVALID_ACTIONS.contains clo.action then rat_0_3 else rat_0_8
  { type := .REMOVED_CLAUSE
    path := clo.clause_uid
    from_clo := some clo
    to_clo := none
    description := "Removed " ++ pyLower clo.modality.value ++ ": " ++ clo.action ++ " " ++ clo.object
    impact := .HIGH
    confidence := confidence
    requires_human_review := confidence < rat_0_5 }

/-! ### `IntentMatcher` -/

/-- Abbreviation used throughout the matcher. -/
abbrev CLO := CanonicalLegalObject

/-- Insertion into `{clo.intent_hash: clo for clo in clos}` (Python
dict: overwrite on an existing key, append otherwise). -/
def insertByHash (m : List (String × CLO)) (clo : CLO) : List (String × CLO) :=
  if m.any (fun p => p.1 == clo.intent_hash) then
    m.map (fun p => if p.1 == clo.intent_hash then (clo.intent_hash, clo) else p)
  else m ++ [(clo.intent_hash, clo)]

/-- The dict `{clo.intent_hash: clo for clo in clos}`, whose `items()`
iterate in first-insertion key order with last-written values. -/
def buildMap (clos : List CLO) : List (String × CLO) :=
  clos.foldl insertByHash []

/-- `h in map`. -/
def hashMem (m : List (String × CLO)) (h : String) : Bool :=
  m.any (fun p => p.1 == h)

/-- `map[h]` (the unique binding of key `h`). -/
def lookupMap (m : List (String × CLO)) (h : String) : Option CLO :=
  (m.find? (fun p => p.1 == h)).map (fun p => p.2)

/-- The tier-2 inner loop of `IntentMatcher.match_clos`: scan the
remaining candidates keeping a running best similarity (initially the
0.88 threshold) and best match, updating on `similarity >=
best_similarity` — so a tie overwrites the earlier best. -/
def tier2Step (sim : String → String → ℚ) (x : CLO) (acc : ℚ × Option CLO) (c : CLO) :
    ℚ × Option CLO :=
  let s := sim x.original_text c.original_text
  if acc.1 ≤ s then (s, some c) else acc

def tier2Scan (sim : String → String → ℚ) (x : CLO) (cands : List CLO) : ℚ × Option CLO :=
  cands.foldl (tier2Step sim x) (rat_0_88, none)

/-- The similarity-fallback partner selected for `x` among `cands`
(`best_match` after the scan; `found_match` holds exactly when it is
set). -/
def tier2Select (sim : String → String → ℚ) (x : CLO) (cands : List CLO) : Option CLO :=
  (tier2Scan sim x cands).2

/-- The tier-2 outer loop: for each hash-unmatched document-1 CLO,
select a partner among the still-unmatched document-2 CLOs; a selected
partner is removed from the pool (`list.remove`: first occurrence).
Returns (extra matched pairs, removed CLOs, remaining pool = additions). -/
def tier2Loop (sim : String → String → ℚ) :
    List CLO → List CLO → List (CLO × CLO) × List CLO × List CLO
  | [], cands => ([], [], cands)
  | x :: xs, cands =>
    match tier2Select sim x cands with
    | some b =>
      let rest := tier2Loop sim xs (cands.erase b)
      ((x, b) :: rest.1, rest.2.1, rest.2.2)
    | none =>
      let rest := tier2Loop sim xs cands
      (rest.1, x :: rest.2.1, rest.2.2)

/-- Tier-1 pairs: for each key of `map1` present in `map2`, the pair of
stored CLOs. -/
def tier1Pairs (map1 map2 : List (String × CLO)) : List (CLO × CLO) :=
  map1.filterMap (fun p => (lookupMap map2 p.1).map (fun c2 => (p.2, c2)))

/-- `IntentMatcher.match_clos`: returns
(matched pairs, added CLOs, removed CLOs, structural-change pairs). -/
def match_clos (sim : String → String → ℚ) (clos1 clos2 : List CLO) :
    List (CLO × CLO) × List CLO × List CLO × List (CLO × CLO) :=
  let map1 := buildMap clos1
  let map2 := buildMap clos2
  let pairs := tier1Pairs map1 map2
  let structural := pairs.filter
    (fun p => p.1.intent_hash == p.2.intent_hash && p.1.section_id != p.2.section_id)
  let matchedT1 := pairs.filter
    (fun p => !(p.1.intent_hash == p.2.intent_hash && p.1.section_id != p.2.section_id))
  let unmatched1 := clos1.filter (fun c => !(hashMem map2 c.intent_hash))
  let unmatched2 := clos2.filter (fun c => !(hashMem map1 c.intent_hash))
  let t2 := tier2Loop sim unmatched1 unmatched2
  (matchedT1 ++ t2.1, t2.2.2, t2.2.1, structural)

/-! ### Document walker and comparator -/

/-- The nested document tree consumed by `compare`: string leaves,
lists, and insertion-ordered dicts. -/
inductive Tree where
  | str : String → Tree
  | node : List Tree → Tree
  | dict : List (String × Tree) → Tree

mutual

/-- `LegalDocumentComparator._extract_clos_from_doc`'s inner `traverse`:
strings reached directly (not as dict values) are not extracted, list
elements are traversed with an indexed path, dict values that are
strings longer than 20 chars are handed to the clause extractor, other
dict values are traversed, and `IGNORE_KEYS` subtrees are skipped. -/
def walkTree (f : String → String → Option CLO) : Tree → String → List CLO
  | .str _, _ => []
  | .node items, path => walkItems f items 0 path
  | .dict entries, path => walkEntries f entries path

def walkItems (f : String → String → Option CLO) :
    List Tree → Nat → String → List CLO
  | [], _, _ => []
  | t :: ts, idx, path =>
    walkTree f t (path ++ "[" ++ toString idx ++ "]") ++ walkItems f ts (idx + 1) path

def walkEntries (f : String → String → Option CLO) :
    List (String × Tree) → String → List CLO
  | [], _ => []
  | (k, v) :: rest, path =>
    (if IGNORE_KEYS.contains k then []
     else
       let newPath := if path = "" then k else path ++ "." ++ k
       match v with
       | .str s => if s.length > 20 then (f s newPath).toList else []
       | .node items => walkItems f items 0 newPath
       | .dict entries => walkEntries f entries newPath) ++ walkEntries f rest path

end

/-- `_extract_clos_from_doc`: walk the document tree from an empty
path. -/
def extract_clos_from_doc (f : String → String → Option CLO) (doc : Tree) : List CLO :=
  walkTree f doc ""

/-- `_deduplicate_clos`: keep the first CLO per intent hash, preserving
order. -/
def deduplicate_clos (clos : List CLO) : List CLO :=
  go [] clos
where
  go (seen : List String) : List CLO → List CLO
    | [] => []
    | c :: rest =>
      if seen.contains c.intent_hash then go seen rest
      else c :: go (c.intent_hash :: seen) rest

/-- Python dict-based counting (`summary.get(k, 0) + 1`). -/
def bumpCount (m : List (String × Nat)) (k : String) : List (String × Nat) :=
  if m.any (fun p => p.1 == k) then
    m.map (fun p => if p.1 == k then (p.1, p.2 + 1) else p)
  else m ++ [(k, 1)]

/-- `_summarize_by_type`. -/
def summarize_by_type (changes : List LegalChange) : List (String × Nat) :=
  changes.foldl (fun m c => bumpCount m c.type.value) []

/-- `_summarize_by_impact`. -/
def summarize_by_impact (changes : List LegalChange) : List (String × Nat) :=
  changes.foldl (fun m c => bumpCount m c.impact.value) []

structure Summary where
  total_changes : Nat
  by_type : List (String × Nat)
  by_impact : List (String × Nat)
  requires_human_review : Nat
  material_changes : Nat
deriving DecidableEq, Repr

structure Report where
  summary : Summary
  changes : List LegalChange
deriving DecidableEq, Repr

/-- The portion of `LegalDocumentComparator.compare` downstream of CLO
extraction: deduplication, intent matching, per-pair analysis,
additions/removals, the LANGUAGE_EQUIVALENT filter, and the summary. -/
def compareCore (sim : String → String → ℚ) (clos1 clos2 : List CLO) : Report :=
  let clos1 := deduplicate_clos clos1
  let clos2 := deduplicate_clos clos2
  let r := match_clos sim clos1 clos2
  let matched := r.1
  let added := r.2.1
  let removed := r.2.2.1
  let structural := r.2.2.2
  let changes :=
    structural.map (fun p => structuralChange p.1 p.2) ++
    matched.filterMap (fun p => analyzeMatchedPair p.1 p.2) ++
    added.map newClauseChange ++
    removed.map removedClauseChange
  let changes := changes.filter (fun c => c.type ≠ .LANGUAGE_EQUIVALENT)
  { summary :=
      { total_changes := changes.length
        by_type := summarize_by_type changes
        by_impact := summarize_by_impact changes
        requires_human_review := (changes.filter (fun c => c.requires_human_review)).length
        material_changes :=
          (changes.filter (fun c => c.impact = .HIGH ∨ c.impact = .CRITICAL)).length }
    changes := changes }

/-- The spaCy/regex extraction helpers of the source that depend on an
external NLP model or on Python's `re` engine, kept as an explicit
interface; every theorem quantifies over their behavior.
`hasVerbOK` is the verb test of `is_legal_clause` (accepting when spaCy
raises), `extract_legal_party_advanced` priorities 1–3 are
`extractParty`, `CLOExtractor._extract_action` / `_extract_object` /
`_extract_law_reference` and `LegalNormalizer.extract_conditions` /
`extract_exceptions` / `extract_timebound` are the rest. -/
structure ExternalNlp where
  hasVerbOK : String → Bool
  extractParty : String → String
  extractActionRaw : String → String
  extractObject : String → String → String
  extractConditions : String → List String
  extractExceptions : String → List String
  extractTimebound : String → Option String
  extractLawRef : String → Option String

/-- The CLO assembled by `CLOExtractor.extract_from_clause` before
validation: party/action/object/law and the regex-based condition,
exception and timebound extraction come from the external interface;
modality extraction and action normalization are concrete. -/
def builtCLO (nlp : ExternalNlp) (d : Digests) (clause_text clause_id : String) : CLO :=
  CanonicalLegalObject.build d clause_id
    (nlp.extractParty clause_text) "PARTY"
    (normalize_action (nlp.extractActionRaw clause_text))
    (nlp.extractObject clause_text (nlp.extractActionRaw clause_text))
    (nlp.extractLawRef clause_text)
    (extract_modality clause_text)
    (nlp.extractConditions clause_text)
    (nlp.extractExceptions clause_text)
    (nlp.extractTimebound clause_text)
    clause_text

/-- `CLOExtractor.extract_from_clause`: noise filter, field extraction,
CLO construction, and validation (`None` on rejection). -/
def extract_from_clause (nlp : ExternalNlp) (d : Digests)
    (clause_text clause_id : String) : Option CLO :=
  if ¬ is_legal_clause nlp.hasVerbOK clause_text then none
  else if ¬ is_valid_clo (builtCLO nlp d clause_text clause_id) then none
  else some (builtCLO nlp d clause_text clause_id)

/-- `LegalDocumentComparator.compare`: extract CLOs from both trees and
run the core comparison. -/
def compare (nlp : ExternalNlp) (d : Digests) (sim : String → String → ℚ)
    (doc1 doc2 : Tree) : Report :=
  compareCore sim
    (extract_clos_from_doc (extract_from_clause nlp d) doc1)
    (extract_clos_from_doc (extract_from_clause nlp d) doc2)

/-! ### Infrastructure lemmas -/

theorem filterMap_filter_nil {α β : Type} {l : List α} {g : α → Option β} {p : β → Bool}
    (h : ∀ a ∈ l, ∀ y, g a = some y → p y = false) :
    (l.filterMap g).filter p = [] := by
  rw [List.filter_eq_nil_iff]
  intro y hy
  rcases List.mem_filterMap.mp hy with ⟨a, ha, hg⟩
  simp [h a ha y hg]

theorem filterMap_filter_singleton {α β : Type} {l : List α} {g : α → Option β} {p : β → Bool}
    {a : α} {x : β} (hn : l.Nodup) (ha : a ∈ l)
    (ho : ∀ b ∈ l, b ≠ a → ∀ y, g b = some y → p y = false)
    (hg : g a = some x) (hp : p x = true) :
    (l.filterMap g).filter p = [x] := by
  induction l with
  | nil => cases ha
  | cons b t ih =>
    rcases List.nodup_cons.mp hn with ⟨hbt, hnt⟩
    rcases List.mem_cons.mp ha with hba | hat
    · subst hba
      rw [List.filterMap_cons, hg, List.filter_cons, if_pos hp]
      have : (t.filterMap g).filter p = [] := by
        refine filterMap_filter_nil ?_
        intro c hc y hcy
        exact ho c (List.mem_cons_of_mem _ hc) (fun e => hbt (e ▸ hc)) y hcy
      rw [this]
    · have hba : b ≠ a := fun e => hbt (e ▸ hat)
      have step : ∀ y, g b = some y → p y = false :=
        ho b (List.mem_cons_self _ _) hba
      rw [List.filterMap_cons]
      cases hgb : g b with
      | none =>
        exact ih hnt hat (fun c hc hca y hcy => ho c (List.mem_cons_of_mem _ hc) hca y hcy)
      | some y =>
        rw [List.filter_cons, if_neg (by simp [step y hgb])]
        exact ih hnt hat (fun c hc hca y hcy => ho c (List.mem_cons_of_mem _ hc) hca y hcy)

/-! #### Deduplication -/

theorem dedup_go_subset (seen : List String) (l : List CLO) :
    ∀ c ∈ deduplicate_clos.go seen l, c ∈ l := by
  induction l generalizing seen with
  | nil => intro c hc; simp [deduplicate_clos.go] at hc
  | cons a t ih =>
    intro c hc
    unfold deduplicate_clos.go at hc
    by_cases hmem : seen.contains a.intent_hash
    · rw [if_pos hmem] at hc
      exact List.mem_cons_of_mem _ (ih seen c hc)
    · rw [if_neg hmem] at hc
      rcases List.mem_cons.mp hc with h | h
      · exact h ▸ List.mem_cons_self _ _
      · exact List.mem_cons_of_mem _ (ih _ c h)

theorem mem_of_mem_deduplicate {c : CLO} {l : List CLO} (h : c ∈ deduplicate_clos l) : c ∈ l :=
  dedup_go_subset [] l c h

theorem dedup_go_spec (seen : List String) (l : List CLO) :
    ((deduplicate_clos.go seen l).map (fun c => c.intent_hash)).Nodup ∧
      ∀ c ∈ deduplicate_clos.go seen l, ¬ seen.contains c.intent_hash := by
  induction l generalizing seen with
  | nil => simp [deduplicate_clos.go]
  | cons a t ih =>
    unfold deduplicate_clos.go
    by_cases hmem : seen.contains a.intent_hash
    · rw [if_pos hmem]
      exact ih seen
    · rw [if_neg hmem]
      rcases ih (a.intent_hash :: seen) with ⟨hnd, hns⟩
      refine ⟨List.nodup_cons.mpr ⟨?_, hnd⟩, ?_⟩
      · intro hin
        rcases List.mem_map.mp hin with ⟨c, hc, hch⟩
        exact hns c hc (by simp [hch])
      · intro c hc
        rcases List.mem_cons.mp hc with h | h
        · subst h; exact fun hx => hmem hx
        · intro hx
          exact hns c h (by simp [List.contains_cons]; exact Or.inr (List.elem_iff.mp hx))

theorem nodup_hash_deduplicate (l : List CLO) :
    ((deduplicate_clos l).map (fun c => c.intent_hash)).Nodup :=
  (dedup_go_spec [] l).1

theorem nodup_deduplicate (l : List CLO) : (deduplicate_clos l).Nodup :=
  (nodup_hash_deduplicate l).of_map _

/-- Hash-injectivity on a CLO list with pairwise distinct hashes. -/
theorem eq_of_hash_eq {l : List CLO} (h : (l.map (fun c => c.intent_hash)).Nodup)
    {a b : CLO} (ha : a ∈ l) (hb : b ∈ l) (he : a.intent_hash = b.intent_hash) : a = b :=
  List.inj_on_of_nodup_map h ha hb he

/-! #### The intent-hash dict of the matcher -/

/-- `buildMap` on a list with pairwise distinct hashes is plain
pairing. -/
theorem buildMap_eq_aux (l : List CLO) :
    ∀ acc : List (String × CLO),
      ((l.map (fun c => c.intent_hash)).Nodup) →
      (∀ p ∈ acc, p.1 ∉ l.map (fun c => c.intent_hash)) →
      l.foldl insertByHash acc = acc ++ l.map (fun c => (c.intent_hash, c)) := by
  induction l with
  | nil => intro acc _ _; simp
  | cons a t ih =>
    intro acc hnd hdisj
    have hnot : acc.any (fun p => p.1 == a.intent_hash) = false := by
      rw [List.any_eq_false]
      intro p hp
      simp only [beq_iff_eq]
      exact fun e => hdisj p hp (by simp [e])
    have h1 : insertByHash acc a = acc ++ [(a.intent_hash, a)] := by
      unfold insertByHash
      rw [hnot]
      simp
    rw [List.map_cons] at hnd
    rcases List.nodup_cons.mp hnd with ⟨hna, hnt⟩
    have := ih (acc ++ [(a.intent_hash, a)]) hnt ?_
    · simpa [h1, List.append_assoc] using this
    · intro p hp
      rcases List.mem_append.mp hp with h | h
      · exact fun hx => hdisj p h (by simp; right; simpa using hx)
      · simp at h
        rw [h]
        simpa using hna

theorem buildMap_eq {l : List CLO} (h : (l.map (fun c => c.intent_hash)).Nodup) :
    buildMap l = l.map (fun c => (c.intent_hash, c)) := by
  simpa using buildMap_eq_aux l [] h (by simp)

theorem hashMem_map (l : List CLO) (h : String) :
    hashMem (l.map (fun c => (c.intent_hash, c))) h = true ↔ ∃ c ∈ l, c.intent_hash = h := by
  simp [hashMem, List.any_eq_true]

theorem lookupMap_map (l : List CLO) (h : String) :
    lookupMap (l.map (fun c => (c.intent_hash, c))) h
      = l.find? (fun c => c.intent_hash == h) := by
  induction l with
  | nil => rfl
  | cons a t ih =>
    by_cases hb : (a.intent_hash == h) = true
    · simp [lookupMap, List.find?_cons, hb]
    · simp only [lookupMap, List.map_cons, List.find?_cons, hb] at ih ⊢
      exact ih

theorem lookupMap_map_eq_some {l : List CLO} {h : String} {b : CLO}
    (he : lookupMap (l.map (fun c => (c.intent_hash, c))) h = some b) :
    b ∈ l ∧ b.intent_hash = h := by
  rw [lookupMap_map] at he
  exact ⟨List.mem_of_find?_eq_some he, by simpa using List.find?_some he⟩

theorem find?_hash_self {l : List CLO} (hn : (l.map (fun c => c.intent_hash)).Nodup)
    {b : CLO} (hb : b ∈ l) :
    l.find? (fun c => c.intent_hash == b.intent_hash) = some b := by
  induction l with
  | nil => cases hb
  | cons a t ih =>
    rw [List.map_cons] at hn
    rcases List.nodup_cons.mp hn with ⟨hna, hnt⟩
    rcases List.mem_cons.mp hb with h | h
    · subst h
      simp [List.find?_cons]
    · have hne : (a.intent_hash == b.intent_hash) = false := by
        simp only [beq_eq_false_iff_ne, ne_eq]
        intro e
        exact hna (e ▸ List.mem_map.mpr ⟨b, h, rfl⟩)
      rw [List.find?_cons, hne]
      exact ih hnt h

theorem tier1Pairs_map (l1 : List CLO) (m2 : List (String × CLO)) :
    tier1Pairs (l1.map (fun c => (c.intent_hash, c))) m2
      = l1.filterMap (fun a => (lookupMap m2 a.intent_hash).map (fun b => (a, b))) := by
  simp only [tier1Pairs, List.filterMap_map]
  rfl

/-! #### Tier-2 scan characterization -/

theorem tier2_fold_ge (sim : String → String → ℚ) (x : CLO) :
    ∀ (cands : List CLO) (acc : ℚ × Option CLO),
      acc.1 ≤ (cands.foldl (tier2Step sim x) acc).1 := by
  intro cands
  induction cands with
  | nil => intro acc; simp
  | cons a t ih =>
    intro acc
    rw [List.foldl_cons]
    by_cases hle : acc.1 ≤ sim x.original_text a.original_text
    · calc acc.1 ≤ sim x.original_text a.original_text := hle
        _ = (tier2Step sim x acc a).1 := by simp [tier2Step, hle]
        _ ≤ _ := ih _
    · have : tier2Step sim x acc a = acc := by simp [tier2Step, hle]
      rw [this]
      exact ih acc

theorem tier2_fold_bound (sim : String → String → ℚ) (x : CLO) :
    ∀ (cands : List CLO) (acc : ℚ × Option CLO) (d : CLO), d ∈ cands →
      sim x.original_text d.original_text ≤ (cands.foldl (tier2Step sim x) acc).1 := by
  intro cands
  induction cands with
  | nil => intro acc d hd; cases hd
  | cons a t ih =>
    intro acc d hd
    rw [List.foldl_cons]
    rcases List.mem_cons.mp hd with h | h
    · subst h
      by_cases hle : acc.1 ≤ sim x.original_text d.original_text
      · have : (tier2Step sim x acc d).1 = sim x.original_text d.original_text := by
          simp [tier2Step, hle]
        calc sim x.original_text d.original_text = (tier2Step sim x acc d).1 := this.symm
          _ ≤ _ := tier2_fold_ge sim x t _
      · have heq : tier2Step sim x acc d = acc := by simp [tier2Step, hle]
        rw [heq]
        push_neg at hle
        exact le_trans hle.le (tier2_fold_ge sim x t acc)
    · exact ih _ d h

theorem tier2_fold_main (sim : String → String → ℚ) (x : CLO) :
    ∀ (cands : List CLO) (acc : ℚ × Option CLO),
      (cands.foldl (tier2Step sim x) acc = acc ∧
        ∀ d ∈ cands, sim x.original_text d.original_text < acc.1) ∨
      (∃ c l r, cands.foldl (tier2Step sim x) acc =
            (sim x.original_text c.original_text, some c) ∧
          acc.1 ≤ sim x.original_text c.original_text ∧ cands = l ++ c :: r ∧
          ∀ d ∈ r, sim x.original_text d.original_text < sim x.original_text c.original_text) := by
  intro cands
  induction cands with
  | nil => intro acc; left; simp
  | cons a t ih =>
    intro acc
    rw [List.foldl_cons]
    by_cases hle : acc.1 ≤ sim x.original_text a.original_text
    · have hstep : tier2Step sim x acc a = (sim x.original_text a.original_text, some a) := by
        simp [tier2Step, hle]
      rw [hstep]
      rcases ih (sim x.original_text a.original_text, some a) with ⟨heq, hall⟩ | ⟨c, l, r, hres, hge, hsplit, hrest⟩
      · right
        exact ⟨a, [], t, by simpa using heq, hle, by simp, fun d hd => hall d hd⟩
      · right
        refine ⟨c, a :: l, r, hres, le_trans hle hge, by simp [hsplit], hrest⟩
    · have hstep : tier2Step sim x acc a = acc := by simp [tier2Step, hle]
      rw [hstep]
      push_neg at hle
      rcases ih acc with ⟨heq, hall⟩ | ⟨c, l, r, hres, hge, hsplit, hrest⟩
      · left
        refine ⟨heq, ?_⟩
        intro d hd
        rcases List.mem_cons.mp hd with h | h
        · exact h ▸ hle
        · exact hall d h
      · right
        exact ⟨c, a :: l, r, hres, hge, by simp [hsplit], hrest⟩

theorem tier2Select_mem {sim : String → String → ℚ} {x b : CLO} {cands : List CLO}
    (h : tier2Select sim x cands = some b) : b ∈ cands := by
  rcases tier2_fold_main sim x cands (rat_0_88, none) with ⟨heq, _⟩ | ⟨c, l, r, hres, _, hsplit, _⟩
  · rw [tier2Select, tier2Scan, heq] at h
    cases h
  · rw [tier2Select, tier2Scan, hres] at h
    simp only [Option.some.injEq] at h
    subst h
    rw [hsplit]
    exact List.mem_append.mpr (Or.inr (List.mem_cons_self _ _))

theorem tier2Loop_mem (sim : String → String → ℚ) :
    ∀ (xs cands : List CLO),
      (∀ p ∈ (tier2Loop sim xs cands).1, p.1 ∈ xs ∧ p.2 ∈ cands) ∧
      (∀ c ∈ (tier2Loop sim xs cands).2.1, c ∈ xs) ∧
      (∀ c ∈ (tier2Loop sim xs cands).2.2, c ∈ cands) := by
  intro xs
  induction xs with
  | nil => intro cands; simp [tier2Loop]
  | cons x t ih =>
    intro cands
    rw [tier2Loop]
    cases hsel : tier2Select sim x cands with
    | some b =>
      simp only
      rcases ih (cands.erase b) with ⟨hm, hr, hrem⟩
      refine ⟨?_, ?_, ?_⟩
      · intro p hp
        rcases List.mem_cons.mp hp with h | h
        · subst h
          exact ⟨List.mem_cons_self _ _, tier2Select_mem hsel⟩
        · rcases hm p h with ⟨h1, h2⟩
          exact ⟨List.mem_cons_of_mem _ h1, List.erase_subset _ _ h2⟩
      · intro c hc
        exact List.mem_cons_of_mem _ (hr c hc)
      · intro c hc
        exact List.erase_subset _ _ (hrem c hc)
    | none =>
      simp only
      rcases ih cands with ⟨hm, hr, hrem⟩
      refine ⟨?_, ?_, ?_⟩
      · intro p hp
        rcases hm p hp with ⟨h1, h2⟩
        exact ⟨List.mem_cons_of_mem _ h1, h2⟩
      · intro c hc
        rcases List.mem_cons.mp hc with h | h
        · exact h ▸ List.mem_cons_self _ _
        · exact List.mem_cons_of_mem _ (hr c h)
      · exact hrem

theorem tier2Loop_empty (sim : String → String → ℚ) :
    ∀ xs : List CLO, tier2Loop sim xs [] = ([], xs, []) := by
  intro xs
  induction xs with
  | nil => rfl
  | cons x t ih =>
    rw [tier2Loop]
    have : tier2Select sim x [] = none := rfl
    rw [this, ih]

/-! #### Gate, assessor and extraction lemmas -/

theorem analyze_from_to {a b : CLO} {ch : LegalChange}
    (h : analyzeMatchedPair a b = some ch) :
    ch.from_clo = some a ∧ ch.to_clo = some b := by
  unfold analyzeMatchedPair at h
  split_ifs at h <;> rw [Option.some.injEq] at h <;> subst h
  · exact ⟨rfl, rfl⟩
  · exact ⟨rfl, rfl⟩

theorem is_material_change_type (a b : CLO) :
    (is_material_change a b).2 ≠ .NEW_CLAUSE ∧ (is_material_change a b).2 ≠ .REMOVED_CLAUSE ∧
      (is_material_change a b).2 ≠ .STRUCTURAL_CHANGE ∧
      (is_material_change a b).2 ≠ .LANGUAGE_EQUIVALENT := by
  unfold is_material_change
  split_ifs <;> simp

theorem analyze_type {a b : CLO} {ch : LegalChange}
    (h : analyzeMatchedPair a b = some ch) :
    ch.type ≠ .NEW_CLAUSE ∧ ch.type ≠ .REMOVED_CLAUSE ∧ ch.type ≠ .STRUCTURAL_CHANGE := by
  unfold analyzeMatchedPair at h
  split_ifs at h <;> rw [Option.some.injEq] at h <;> subst h
  · simp [languageEquivalentChange]
  · rcases is_material_change_type a b with ⟨ha, hb, hc, _⟩
    exact ⟨ha, hb, hc⟩

theorem is_valid_clo_action {clo : CLO} (h : is_valid_clo clo = true) :
    INVALID_ACTIONS.contains clo.action = false := by
  unfold is_valid_clo at h
  split_ifs at h with h1
  simpa using h1

theorem extract_from_clause_valid {nlp : ExternalNlp} {d : Digests} {s p : String} {clo : CLO}
    (h : extract_from_clause nlp d s p = some clo) : is_valid_clo clo = true := by
  unfold extract_from_clause at h
  split_ifs at h with h1 h2
  rw [Option.some.injEq] at h
  subst h
  simpa using h2

/-! #### Walker characterization

`candidateLeaves` is the specification-side description of the clause
candidates: the `(path, string)` pairs of every string leaf that is a
*dict value* longer than 20 characters and not inside a subtree rooted
at an ignore-key.  (String leaves that are elements of a list are never
candidates: the source's `traverse` does nothing on a bare string.) -/

mutual

def candTree : Tree → String → List (String × String)
  | .str _, _ => []
  | .node items, path => candItems items 0 path
  | .dict entries, path => candEntries entries path

def candItems : List Tree → Nat → String → List (String × String)
  | [], _, _ => []
  | t :: ts, idx, path =>
    candTree t (path ++ "[" ++ toString idx ++ "]") ++ candItems ts (idx + 1) path

def candEntries : List (String × Tree) → String → List (String × String)
  | [], _ => []
  | (k, v) :: rest, path =>
    (if IGNORE_KEYS.contains k then []
     else
       let newPath := if path = "" then k else path ++ "." ++ k
       match v with
       | .str s => if s.length > 20 then [(newPath, s)] else []
       | .node items => candItems items 0 newPath
       | .dict entries => candEntries entries newPath) ++ candEntries rest path

end

mutual

theorem walkTree_eq_cand (f : String → String → Option CLO) :
    ∀ (t : Tree) (path : String),
      walkTree f t path = (candTree t path).flatMap (fun ps => (f ps.2 ps.1).toList)
  | .str s, path => by simp [walkTree, candTree]
  | .node items, path => by
    rw [walkTree, candTree]
    exact walkItems_eq_cand f items 0 path
  | .dict entries, path => by
    rw [walkTree, candTree]
    exact walkEntries_eq_cand f entries path

theorem walkItems_eq_cand (f : String → String → Option CLO) :
    ∀ (items : List Tree) (idx : Nat) (path : String),
      walkItems f items idx path
        = (candItems items idx path).flatMap (fun ps => (f ps.2 ps.1).toList)
  | [], idx, path => by simp [walkItems, candItems]
  | t :: ts, idx, path => by
    rw [walkItems, candItems, List.flatMap_append]
    rw [walkTree_eq_cand f t _, walkItems_eq_cand f ts _ _]

theorem walkEntries_eq_cand (f : String → String → Option CLO) :
    ∀ (entries : List (String × Tree)) (path : String),
      walkEntries f entries path
        = (candEntries entries path).flatMap (fun ps => (f ps.2 ps.1).toList)
  | [], path => by simp [walkEntries, candEntries]
  | (k, v) :: rest, path => by
    rw [walkEntries, candEntries, List.flatMap_append]
    rw [walkEntries_eq_cand f rest path]
    congr 1
    by_cases hk : IGNORE_KEYS.contains k = true
    · have hk' : k ∈ IGNORE_KEYS := by simpa using hk
      simp [hk']
    · rw [if_neg hk, if_neg hk]
      cases v with
      | str s =>
        by_cases hl : s.length > 20
        · simp only [hl, if_true, ite_true]
          simp
        · simp [hl]
      | node items =>
        simpa using walkItems_eq_cand f items 0 (if path = "" then k else path ++ "." ++ k)
      | dict entries =>
        simpa using walkEntries_eq_cand f entries (if path = "" then k else path ++ "." ++ k)

end

theorem extract_clos_eq_cand (f : String → String → Option CLO) (doc : Tree) :
    extract_clos_from_doc f doc = (candTree doc "").flatMap (fun ps => (f ps.2 ps.1).toList) :=
  walkTree_eq_cand f doc ""

/-- Every CLO produced by the document walker comes from the clause
extractor applied to a candidate leaf. -/
theorem walk_mem {f : String → String → Option CLO} {doc : Tree} {c : CLO}
    (h : c ∈ extract_clos_from_doc f doc) : ∃ s p, f s p = some c := by
  rw [extract_clos_eq_cand] at h
  rcases List.mem_flatMap.mp h with ⟨ps, _, hmem⟩
  refine ⟨ps.2, ps.1, ?_⟩
  cases hf : f ps.2 ps.1 with
  | none => rw [hf] at hmem; cases hmem
  | some c' => rw [hf] at hmem; simp at hmem; rw [hmem]

/-! #### Matcher decomposition -/

theorem compareCore_changes (sim : String → String → ℚ) (clos1 clos2 : List CLO) :
    (compareCore sim clos1 clos2).changes =
      ((match_clos sim (deduplicate_clos clos1) (deduplicate_clos clos2)).2.2.2.map
          (fun p => structuralChange p.1 p.2) ++
        (match_clos sim (deduplicate_clos clos1) (deduplicate_clos clos2)).1.filterMap
          (fun p => analyzeMatchedPair p.1 p.2) ++
        (match_clos sim (deduplicate_clos clos1) (deduplicate_clos clos2)).2.1.map
          newClauseChange ++
        (match_clos sim (deduplicate_clos clos1) (deduplicate_clos clos2)).2.2.1.map
          removedClauseChange).filter (fun c => c.type ≠ .LANGUAGE_EQUIVALENT) := by
  unfold compareCore
  rfl

/-- The tier-1 candidate pairs of the matcher, after the dict model is
replaced by direct list search (valid once both CLO lists have pairwise
distinct hashes, which deduplication guarantees). -/
def tier1PairsOf (l1 l2 : List CLO) : List (CLO × CLO) :=
  l1.filterMap (fun a =>
    (l2.find? (fun b => b.intent_hash == a.intent_hash)).map (fun b => (a, b)))

/-- The hash-unmatched CLOs of `l` relative to `other`. -/
def unmatchedOf (l other : List CLO) : List CLO :=
  l.filter (fun c => !(hashMem (other.map (fun x => (x.intent_hash, x))) c.intent_hash))

theorem match_clos_components (sim : String → String → ℚ) {l1 l2 : List CLO}
    (h1 : (l1.map (fun c => c.intent_hash)).Nodup)
    (h2 : (l2.map (fun c => c.intent_hash)).Nodup) :
    match_clos sim l1 l2 =
      ((tier1PairsOf l1 l2).filter
          (fun p => !(p.1.intent_hash == p.2.intent_hash && p.1.section_id != p.2.section_id))
        ++ (tier2Loop sim (unmatchedOf l1 l2) (unmatchedOf l2 l1)).1,
       (tier2Loop sim (unmatchedOf l1 l2) (unmatchedOf l2 l1)).2.2,
       (tier2Loop sim (unmatchedOf l1 l2) (unmatchedOf l2 l1)).2.1,
       (tier1PairsOf l1 l2).filter
          (fun p => p.1.intent_hash == p.2.intent_hash && p.1.section_id != p.2.section_id)) := by
  unfold match_clos tier1PairsOf unmatchedOf
  rw [buildMap_eq h1, buildMap_eq h2]
  simp only [tier1Pairs_map, lookupMap_map]

theorem match_clos_nil_left (sim : String → String → ℚ) (l : List CLO) :
    match_clos sim [] l = ([], l, [], []) := by
  unfold match_clos
  simp only [buildMap, List.foldl_nil, tier1Pairs, List.filterMap_nil, List.filter_nil,
    List.nil_append, hashMem, List.any_nil, Bool.not_false, List.filter_true]
  have hf : l.filter (fun _ => !false) = l := by
    rw [List.filter_eq_self]
    intro a _
    rfl
  rfl

theorem match_clos_nil_right (sim : String → String → ℚ) (l : List CLO) :
    match_clos sim l [] = ([], [], l, []) := by
  unfold match_clos tier1Pairs lookupMap
  simp only [buildMap, List.foldl_nil, List.find?_nil, Option.map_none', List.filter_nil,
    hashMem, List.any_nil, Bool.not_false, List.filter_true]
  simp [tier2Loop_empty]

/-! #### Pair-exclusion lemmas for the language-equivalence and
structural-move claims -/

theorem tier1PairsOf_mem {l1 l2 : List CLO} {a b : CLO}
    (h : (a, b) ∈ tier1PairsOf l1 l2) :
    a ∈ l1 ∧ b ∈ l2 ∧ b.intent_hash = a.intent_hash := by
  rcases List.mem_filterMap.mp h with ⟨a', ha', he⟩
  cases hf : l2.find? (fun c => c.intent_hash == a'.intent_hash) with
  | none => rw [hf] at he; cases he
  | some b' =>
    rw [hf] at he
    simp only [Option.map_some', Option.some.injEq, Prod.mk.injEq] at he
    obtain ⟨rfl, rfl⟩ := he
    exact ⟨ha', List.mem_of_find?_eq_some hf, by simpa using List.find?_some hf⟩

theorem find?_at_clo1 {l2 : List CLO} {clo1 clo2 : CLO}
    (hn2 : (l2.map (fun c => c.intent_hash)).Nodup) (h2 : clo2 ∈ l2)
    (hh : clo1.intent_hash = clo2.intent_hash) :
    l2.find? (fun b => b.intent_hash == clo1.intent_hash) = some clo2 := by
  rw [hh]
  exact find?_hash_self hn2 h2

/-- The unique tier-1 pair whose first component is `clo1` is
`(clo1, clo2)`. -/
theorem tier1PairsOf_fst {l1 l2 : List CLO} {clo1 clo2 : CLO}
    (hn2 : (l2.map (fun c => c.intent_hash)).Nodup) (h2 : clo2 ∈ l2)
    (hh : clo1.intent_hash = clo2.intent_hash) :
    ∀ p ∈ tier1PairsOf l1 l2, p.1 = clo1 → p = (clo1, clo2) := by
  intro p hp hfst
  rcases List.mem_filterMap.mp hp with ⟨a, _, he⟩
  cases hf : l2.find? (fun c => c.intent_hash == a.intent_hash) with
  | none => rw [hf] at he; cases he
  | some b =>
    rw [hf] at he
    simp only [Option.map_some', Option.some.injEq] at he
    subst he
    simp only at hfst
    subst hfst
    rw [find?_at_clo1 hn2 h2 hh] at hf
    simp only [Option.some.injEq] at hf
    rw [hf]

theorem unmatchedOf_spec {l other : List CLO} {c : CLO} (hc : c ∈ unmatchedOf l other) :
    c ∈ l ∧ ∀ b ∈ other, b.intent_hash ≠ c.intent_hash := by
  rcases List.mem_filter.mp hc with ⟨hl, hb⟩
  refine ⟨hl, ?_⟩
  intro b hbo he
  have ht : hashMem (other.map (fun x => (x.intent_hash, x))) c.intent_hash = true :=
    (hashMem_map other c.intent_hash).mpr ⟨b, hbo, he⟩
  rw [ht] at hb
  cases hb

/-- A document-1 CLO that is hash-unmatched is neither of the two
hash-matched CLOs `clo1`, `clo2` (with `clo2` in document 2). -/
theorem unmatched1_ne {l1 l2 : List CLO} {c clo1 clo2 : CLO}
    (hc : c ∈ unmatchedOf l1 l2) (h2 : clo2 ∈ l2)
    (hh : clo1.intent_hash = clo2.intent_hash) :
    c ≠ clo1 ∧ c ≠ clo2 := by
  rcases unmatchedOf_spec hc with ⟨_, hnone⟩
  constructor
  · intro hceq
    exact hnone clo2 h2 (by rw [hceq]; exact hh.symm)
  · intro hceq
    exact hnone clo2 h2 (by rw [hceq])

/-- A document-2 CLO that is hash-unmatched is neither of the two
hash-matched CLOs `clo1`, `clo2` (with `clo1` in document 1). -/
theorem unmatched2_ne {l1 l2 : List CLO} {c clo1 clo2 : CLO}
    (hc : c ∈ unmatchedOf l2 l1) (h1 : clo1 ∈ l1)
    (hh : clo1.intent_hash = clo2.intent_hash) :
    c ≠ clo1 ∧ c ≠ clo2 := by
  rcases unmatchedOf_spec hc with ⟨_, hnone⟩
  constructor
  · intro hceq
    exact hnone clo1 h1 (by rw [hceq])
  · intro hceq
    exact hnone clo1 h1 (by rw [hceq]; exact hh)

/-- A change whose endpoints differ from both `clo1` and `clo2` does not
reference the pair. -/
theorem refs_false {a b clo1 clo2 : CLO} {ch : LegalChange}
    (hfrom : ch.from_clo = some a) (hto : ch.to_clo = some b)
    (ha1 : a ≠ clo1) (ha2 : a ≠ clo2) (hb1 : b ≠ clo1) (hb2 : b ≠ clo2) :
    (ch.from_clo == some clo1 || ch.to_clo == some clo1 ||
      ch.from_clo == some clo2 || ch.to_clo == some clo2) = false := by
  rw [hfrom, hto]
  simp [ha1, ha2, hb1, hb2]

theorem refs_false_new {c clo1 clo2 : CLO} (hc1 : c ≠ clo1) (hc2 : c ≠ clo2) :
    ((newClauseChange c).from_clo == some clo1 || (newClauseChange c).to_clo == some clo1 ||
      (newClauseChange c).from_clo == some clo2 || (newClauseChange c).to_clo == some clo2)
      = false := by
  simp [newClauseChange, hc1, hc2]

theorem refs_false_removed {c clo1 clo2 : CLO} (hc1 : c ≠ clo1) (hc2 : c ≠ clo2) :
    ((removedClauseChange c).from_clo == some clo1 ||
      (removedClauseChange c).to_clo == some clo1 ||
      (removedClauseChange c).from_clo == some clo2 ||
      (removedClauseChange c).to_clo == some clo2) = false := by
  simp [removedClauseChange, hc1, hc2]

/-- A tier-1 pair whose first component is not `clo1` involves neither
`clo1` nor `clo2`. -/
theorem tier1_pair_ne {l1 l2 : List CLO} {clo1 clo2 : CLO}
    (hn1 : (l1.map (fun c => c.intent_hash)).Nodup)
    (h1 : clo1 ∈ l1) (hh : clo1.intent_hash = clo2.intent_hash)
    {a b : CLO} (hp : (a, b) ∈ tier1PairsOf l1 l2) (hne : a ≠ clo1) :
    a ≠ clo2 ∧ b ≠ clo1 ∧ b ≠ clo2 := by
  rcases tier1PairsOf_mem hp with ⟨hal, _, hba⟩
  have hhash : a.intent_hash ≠ clo1.intent_hash := by
    intro he
    exact hne (eq_of_hash_eq hn1 hal h1 he)
  refine ⟨?_, ?_, ?_⟩
  · intro he
    apply hhash
    rw [he, hh]
  · intro he
    apply hhash
    rw [← hba, he]
  · intro he
    apply hhash
    rw [← hba, he, hh]

/-! #### Segment lemmas: which changes of a report can reference a
hash-matched pair `(clo1, clo2)` -/

theorem seg_structural_one {l1 l2 : List CLO} {clo1 clo2 : CLO}
    (hn1 : (l1.map (fun c => c.intent_hash)).Nodup)
    (hn2 : (l2.map (fun c => c.intent_hash)).Nodup)
    (h1 : clo1 ∈ l1) (h2 : clo2 ∈ l2)
    (hh : clo1.intent_hash = clo2.intent_hash) (hs : clo1.section_id ≠ clo2.section_id) :
    (((tier1PairsOf l1 l2).filter
        (fun p => p.1.intent_hash == p.2.intent_hash && p.1.section_id != p.2.section_id)).map
        (fun p => structuralChange p.1 p.2)).filter
      (fun ch => (ch.from_clo == some clo1 || ch.to_clo == some clo1 ||
        ch.from_clo == some clo2 || ch.to_clo == some clo2)
        && decide (ch.type ≠ ChangeType.LANGUAGE_EQUIVALENT))
      = [structuralChange clo1 clo2] := by
  rw [List.filter_map, List.filter_filter]
  have hone : (tier1PairsOf l1 l2).filter
      (fun p => ((fun ch => (ch.from_clo == some clo1 || ch.to_clo == some clo1 ||
        ch.from_clo == some clo2 || ch.to_clo == some clo2)
        && decide (ch.type ≠ ChangeType.LANGUAGE_EQUIVALENT)) ∘
          (fun p => structuralChange p.1 p.2)) p
        && (p.1.intent_hash == p.2.intent_hash && p.1.section_id != p.2.section_id))
      = [(clo1, clo2)] := by
    unfold tier1PairsOf
    refine filterMap_filter_singleton (hn1.of_map _) h1 ?_ ?_ ?_
    · intro a hal hne y hy
      cases hf : l2.find? (fun c => c.intent_hash == a.intent_hash) with
      | none => rw [hf] at hy; cases hy
      | some b =>
        rw [hf] at hy
        simp only [Option.map_some', Option.some.injEq] at hy
        subst hy
        have hp : (a, b) ∈ tier1PairsOf l1 l2 :=
          List.mem_filterMap.mpr ⟨a, hal, by rw [hf]; rfl⟩
        rcases tier1_pair_ne hn1 h1 hh hp hne with ⟨ha2, hb1, hb2⟩
        have href := @refs_false a b clo1 clo2 (structuralChange a b) rfl rfl hne ha2 hb1 hb2
        simp [Function.comp_apply, href]
    · rw [find?_at_clo1 hn2 h2 hh]
      rfl
    · have href : ((structuralChange clo1 clo2).from_clo == some clo1 ||
          (structuralChange clo1 clo2).to_clo == some clo1 ||
          (structuralChange clo1 clo2).from_clo == some clo2 ||
          (structuralChange clo1 clo2).to_clo == some clo2) = true := by
        simp [structuralChange]
      simp [Function.comp_apply, href, structuralChange, hh, hs]
  rw [hone]
  rfl

theorem seg_structural_nil {l1 l2 : List CLO} {clo1 clo2 : CLO}
    (hn1 : (l1.map (fun c => c.intent_hash)).Nodup)
    (hn2 : (l2.map (fun c => c.intent_hash)).Nodup)
    (h1 : clo1 ∈ l1) (h2 : clo2 ∈ l2)
    (hh : clo1.intent_hash = clo2.intent_hash) (hsec : clo1.section_id = clo2.section_id) :
    (((tier1PairsOf l1 l2).filter
        (fun p => p.1.intent_hash == p.2.intent_hash && p.1.section_id != p.2.section_id)).map
        (fun p => structuralChange p.1 p.2)).filter
      (fun ch => (ch.from_clo == some clo1 || ch.to_clo == some clo1 ||
        ch.from_clo == some clo2 || ch.to_clo == some clo2)
        && decide (ch.type ≠ ChangeType.LANGUAGE_EQUIVALENT))
      = [] := by
  rw [List.filter_map, List.filter_filter]
  have hnil : (tier1PairsOf l1 l2).filter
      (fun p => ((fun ch => (ch.from_clo == some clo1 || ch.to_clo == some clo1 ||
        ch.from_clo == some clo2 || ch.to_clo == some clo2)
        && decide (ch.type ≠ ChangeType.LANGUAGE_EQUIVALENT)) ∘
          (fun p => structuralChange p.1 p.2)) p
        && (p.1.intent_hash == p.2.intent_hash && p.1.section_id != p.2.section_id))
      = [] := by
    rw [List.filter_eq_nil_iff]
    intro p hp
    by_cases hfst : p.1 = clo1
    · have hpe := tier1PairsOf_fst hn2 h2 hh p hp hfst
      rw [hpe]
      simp [hh, hsec]
    · have hp' : (p.1, p.2) ∈ tier1PairsOf l1 l2 := by
        rw [Prod.mk.eta]
        exact hp
      rcases tier1_pair_ne hn1 h1 hh hp' hfst with ⟨ha2, hb1, hb2⟩
      have href := @refs_false p.1 p.2 clo1 clo2 (structuralChange p.1 p.2)
        rfl rfl hfst ha2 hb1 hb2
      simp [Function.comp_apply, href]
  rw [hnil]
  rfl

theorem seg_matched_nil (sim : String → String → ℚ) {l1 l2 : List CLO} {clo1 clo2 : CLO}
    (hn1 : (l1.map (fun c => c.intent_hash)).Nodup)
    (hn2 : (l2.map (fun c => c.intent_hash)).Nodup)
    (h1 : clo1 ∈ l1) (h2 : clo2 ∈ l2)
    (hh : clo1.intent_hash = clo2.intent_hash)
    (hcase : clo1.section_id ≠ clo2.section_id ∨ clo1.original_text ≠ clo2.original_text) :
    ((((tier1PairsOf l1 l2).filter
        (fun p => !(p.1.intent_hash == p.2.intent_hash && p.1.section_id != p.2.section_id)))
        ++ (tier2Loop sim (unmatchedOf l1 l2) (unmatchedOf l2 l1)).1).filterMap
        (fun p => analyzeMatchedPair p.1 p.2)).filter
      (fun ch => (ch.from_clo == some clo1 || ch.to_clo == some clo1 ||
        ch.from_clo == some clo2 || ch.to_clo == some clo2)
        && decide (ch.type ≠ ChangeType.LANGUAGE_EQUIVALENT))
      = [] := by
  refine filterMap_filter_nil ?_
  intro p hp ch hch
  rcases analyze_from_to hch with ⟨hfrom, hto⟩
  rcases List.mem_append.mp hp with hp1 | hp2
  · rcases List.mem_filter.mp hp1 with ⟨hpairs, hcond⟩
    by_cases hfst : p.1 = clo1
    · have hpe : p = (clo1, clo2) := tier1PairsOf_fst hn2 h2 hh p hpairs hfst
      rw [hpe] at hcond
      have hsec : clo1.section_id = clo2.section_id := by
        by_contra hne
        simp [hh, hne] at hcond
      rcases hcase with hc | hc
      · exact absurd hsec hc
      · rw [hpe] at hch
        have hle : detect_language_equivalence clo1 clo2 = true := by
          unfold detect_language_equivalence
          simp [hh, hc]
        unfold analyzeMatchedPair at hch
        rw [if_pos (by simp [hle])] at hch
        rw [Option.some.injEq] at hch
        rw [← hch]
        simp [languageEquivalentChange]
    · have hp' : (p.1, p.2) ∈ tier1PairsOf l1 l2 := by
        rw [Prod.mk.eta]
        exact hpairs
      rcases tier1_pair_ne hn1 h1 hh hp' hfst with ⟨ha2, hb1, hb2⟩
      have href := refs_false hfrom hto hfst ha2 hb1 hb2
      simp [href]
  · rcases (tier2Loop_mem sim _ _).1 p hp2 with ⟨hpa, hpb⟩
    rcases unmatched1_ne hpa h2 hh with ⟨ha1, ha2⟩
    rcases unmatched2_ne hpb h1 hh with ⟨hb1, hb2⟩
    have href := refs_false hfrom hto ha1 ha2 hb1 hb2
    simp [href]

theorem seg_added_nil (sim : String → String → ℚ) {l1 l2 : List CLO} {clo1 clo2 : CLO}
    (h1 : clo1 ∈ l1) (hh : clo1.intent_hash = clo2.intent_hash) :
    (((tier2Loop sim (unmatchedOf l1 l2) (unmatchedOf l2 l1)).2.2).map newClauseChange).filter
      (fun ch => (ch.from_clo == some clo1 || ch.to_clo == some clo1 ||
        ch.from_clo == some clo2 || ch.to_clo == some clo2)
        && decide (ch.type ≠ ChangeType.LANGUAGE_EQUIVALENT))
      = [] := by
  rw [List.filter_map]
  have hnil : ((tier2Loop sim (unmatchedOf l1 l2) (unmatchedOf l2 l1)).2.2).filter
      ((fun ch => (ch.from_clo == some clo1 || ch.to_clo == some clo1 ||
        ch.from_clo == some clo2 || ch.to_clo == some clo2)
        && decide (ch.type ≠ ChangeType.LANGUAGE_EQUIVALENT)) ∘ newClauseChange)
      = [] := by
    rw [List.filter_eq_nil_iff]
    intro c hc
    have hcm := (tier2Loop_mem sim _ _).2.2 c hc
    rcases unmatched2_ne hcm h1 hh with ⟨hc1, hc2⟩
    have href := refs_false_new hc1 hc2
    simp [Function.comp_apply, href]
  rw [hnil]
  rfl

theorem seg_removed_nil (sim : String → String → ℚ) {l1 l2 : List CLO} {clo1 clo2 : CLO}
    (h2 : clo2 ∈ l2) (hh : clo1.intent_hash = clo2.intent_hash) :
    (((tier2Loop sim (unmatchedOf l1 l2) (unmatchedOf l2 l1)).2.1).map
        removedClauseChange).filter
      (fun ch => (ch.from_clo == some clo1 || ch.to_clo == some clo1 ||
        ch.from_clo == some clo2 || ch.to_clo == some clo2)
        && decide (ch.type ≠ ChangeType.LANGUAGE_EQUIVALENT))
      = [] := by
  rw [List.filter_map]
  have hnil : ((tier2Loop sim (unmatchedOf l1 l2) (unmatchedOf l2 l1)).2.1).filter
      ((fun ch => (ch.from_clo == some clo1 || ch.to_clo == some clo1 ||
        ch.from_clo == some clo2 || ch.to_clo == some clo2)
        && decide (ch.type ≠ ChangeType.LANGUAGE_EQUIVALENT)) ∘ removedClauseChange)
      = [] := by
    rw [List.filter_eq_nil_iff]
    intro c hc
    have hcm := (tier2Loop_mem sim _ _).2.1 c hc
    rcases unmatched1_ne hcm h2 hh with ⟨hc1, hc2⟩
    have href := refs_false_removed hc1 hc2
    simp [Function.comp_apply, href]
  rw [hnil]
  rfl

/-! ### Claim C7 -/

/-- **C7**: `intent_hash` is a pure function of party, action, object,
modality, the sorted normalized conditions, the sorted normalized
exceptions, and timebound.  Two CLOs agreeing on these fields — even
with different clause uid, role, law reference, or original text (and
hence different qualifiers, which are derived from the text) — receive
equal intent hashes, for every digest function, and the hash is
invariant under any reordering of the conditions and exceptions lists
(a permutation of the raw lists permutes the normalized lists). -/
theorem C7_intent_hash_pure (d : Digests)
    (uid1 uid2 role1 role2 text1 text2 : String) (law1 law2 : Option String)
    (party action object : String) (modality : Modality)
    (conds1 conds2 excs1 excs2 : List String) (tb : Option String)
    (hc : (conds1.map (normalize_condition d)).Perm (conds2.map (normalize_condition d)))
    (he : (excs1.map normalize_exception).Perm (excs2.map normalize_exception)) :
    (CanonicalLegalObject.build d uid1 party role1 action object law1 modality
        conds1 excs1 tb text1).intent_hash =
      (CanonicalLegalObject.build d uid2 party role2 action object law2 modality
        conds2 excs2 tb text2).intent_hash := by
  show generate_intent_hash d party action object modality
      (conds1.map (normalize_condition d)) (excs1.map normalize_exception) tb
    = generate_intent_hash d party action object modality
      (conds2.map (normalize_condition d)) (excs2.map normalize_exception) tb
  unfold generate_intent_hash
  rw [sortStrings_perm hc, sortStrings_perm he]

/-- Witness for C7 at a concrete input: reordered conditions, different
uid, role, law and original text, identical hash. -/
theorem C7_intent_hash_pure_witness :
    ((["if payment is late", "when notice is given"].map (normalize_condition ⟨id, id⟩)).Perm
      (["when notice is given", "if payment is late"].map (normalize_condition ⟨id, id⟩))) ∧
    (CanonicalLegalObject.build ⟨id, id⟩ "3.1" "CUSTOMER" "PARTY" "PAY" "fees" none .OBLIGATION
        ["if payment is late", "when notice is given"] ["except holidays"] none
        "The Customer shall pay fees").intent_hash =
      (CanonicalLegalObject.build ⟨id, id⟩ "7.2" "CUSTOMER" "OTHER" "PAY" "fees" (some "GDPR")
        .OBLIGATION ["when notice is given", "if payment is late"] ["except holidays"] none
        "Le client paiera les frais").intent_hash :=
  ⟨by decide,
    C7_intent_hash_pure ⟨id, id⟩ "3.1" "7.2" "PARTY" "OTHER"
      "The Customer shall pay fees" "Le client paiera les frais" none (some "GDPR")
      "CUSTOMER" "PAY" "fees" .OBLIGATION
      ["if payment is late", "when notice is given"] ["when notice is given", "if payment is late"]
      ["except holidays"] ["except holidays"] none (by decide) (by decide)⟩

/-! ### Claim C4 -/

/-- **C4** (code bug): the claim (and the source's own `MODALITY_MAP`,
whose entry maps "shall not" to PROHIBITION) says a clause whose modal
phrase is "shall not" or "must not" is classified PROHIBITION; but
`extract_modality` scans the map in insertion order and the substrings
"shall"/"must" match before "shall not"/"must not" ever can, so such
clauses are classified OBLIGATION and PROHIBITION is unreachable.  This
theorem evaluates the code at the failing inputs. -/
theorem C4_prohibition_unreachable :
    extract_modality "The Vendor shall not disclose the data" = Modality.OBLIGATION ∧
    extract_modality "The Vendor must not disclose the data" = Modality.OBLIGATION ∧
    containsSub (pyLower "The Vendor shall not disclose the data") "shall not" = true ∧
    MODALITY_MAP.find? (fun p => p.1 == "shall not")
      = some ("shall not", Modality.PROHIBITION) :=
  ⟨by decide, by decide, by decide, by decide⟩

/-! ### Claim C3 -/

/-- First CLO of the C3 failing input: an obligation with no
exceptions. -/
def c3from : CLO :=
  CanonicalLegalObject.build ⟨id, id⟩ "5.2" "CUSTOMER" "PARTY" "PAY" "the invoice amount" none
    .OBLIGATION [] [] none "The Customer shall pay the invoice amount"

/-- Second CLO of the C3 failing input: the same obligation with an
exception added (the spec's Scenario 5). -/
def c3to : CLO :=
  CanonicalLegalObject.build ⟨id, id⟩ "5.2" "CUSTOMER" "PARTY" "PAY" "the invoice amount" none
    .OBLIGATION [] ["where the Customer disputes the invoice in writing"] none
    "The Customer shall pay the invoice amount except where the Customer disputes the invoice in writing"

/-- **C3** (code bug): for a matched pair with equal party and modality
whose exceptions were only *added*, `compare_exceptions` itself computes
impact HIGH (as the claim says), but the pipeline classifies the pair
EXCEPTION_CHANGE and then takes its impact from
`ImpactAssessor.assess_impact`, which returns CRITICAL for every
EXCEPTION_CHANGE — the analysis's differentiated impact is computed and
discarded. -/
theorem C3_exception_impact_divergence :
    c3from.party = c3to.party ∧ c3from.modality = c3to.modality ∧
    (compare_exceptions c3from.exceptions c3to.exceptions).removed = [] ∧
    (compare_exceptions c3from.exceptions c3to.exceptions).impact = "HIGH" ∧
    (analyzeMatchedPair c3from c3to).map (fun ch => ch.type) = some .EXCEPTION_CHANGE ∧
    (analyzeMatchedPair c3from c3to).map (fun ch => ch.impact) = some .CRITICAL :=
  ⟨by decide, by decide, by decide, by decide, by decide, by decide⟩

/-! ### Claim C5 -/

/-- First CLO of the C5 counterexample: an OBLIGATION. -/
def c5from : CLO :=
  CanonicalLegalObject.build ⟨id, id⟩ "4.1" "CUSTOMER" "PARTY" "PAY" "the invoice amount" none
    .OBLIGATION [] [] none "The Customer shall pay the invoice amount"

/-- Second CLO of the C5 counterexample: the same clause weakened to a
PERMISSION. -/
def c5to : CLO :=
  CanonicalLegalObject.build ⟨id, id⟩ "4.1" "CUSTOMER" "PARTY" "PAY" "the invoice amount" none
    .PERMISSION [] [] none "The Customer may pay the invoice amount"

/-- Counterexample to C5 as stated: the pair differs only in modality
and the *resulting* modality (the second document's CLO) is PERMISSION,
so the claim predicts impact MEDIUM — but the code assesses impact on
the *first* document's CLO, whose modality is OBLIGATION, and reports
HIGH. -/
theorem C5_counterexample :
    c5from.party = c5to.party ∧ c5from.modality ≠ c5to.modality ∧
    c5to.modality ≠ Modality.OBLIGATION ∧
    (analyzeMatchedPair c5from c5to).map (fun ch => ch.type) = some .OBLIGATION_CHANGE ∧
    (analyzeMatchedPair c5from c5to).map (fun ch => ch.impact) = some .HIGH :=
  ⟨by decide, by decide, by decide, by decide, by decide⟩

/-- **C5 (amended)**: when a matched, non-language-equivalent CLO pair
with equal party differs in modality, the change is OBLIGATION_CHANGE
with impact HIGH if the *first* document's CLO (the `from` side) has
modality OBLIGATION, and MEDIUM otherwise. -/
theorem C5_amended (c1 c2 : CLO) (hp : c1.party = c2.party) (hm : c1.modality ≠ c2.modality)
    (hle : detect_language_equivalence c1 c2 = false) :
    analyzeMatchedPair c1 c2 = some (materialChange c1 c2) ∧
    (materialChange c1 c2).type = .OBLIGATION_CHANGE ∧
    (materialChange c1 c2).impact
      = (if c1.modality = .OBLIGATION then ImpactLevel.HIGH else ImpactLevel.MEDIUM) := by
  have hmt : is_material_change c1 c2 = (true, .OBLIGATION_CHANGE) := by
    unfold is_material_change
    rw [if_neg (by simp [hp]), if_pos hm]
  refine ⟨?_, ?_, ?_⟩
  · unfold analyzeMatchedPair
    rw [if_neg (by simp [hle]), if_pos (by rw [hmt])]
  · show (is_material_change c1 c2).2 = _
    rw [hmt]
  · show assess_impact (is_material_change c1 c2).2 c1 = _
    rw [hmt]
    unfold assess_impact
    simp

/-- Witness for C5 (amended) at the concrete pair. -/
theorem C5_amended_witness :
    analyzeMatchedPair c5from c5to = some (materialChange c5from c5to) ∧
    (materialChange c5from c5to).type = .OBLIGATION_CHANGE ∧
    (materialChange c5from c5to).impact
      = (if c5from.modality = .OBLIGATION then ImpactLevel.HIGH else ImpactLevel.MEDIUM) :=
  C5_amended c5from c5to (by decide) (by decide) (by decide)

/-! ### Claim C6 -/

/-- The hash-unmatched document-1 CLO of the C6 counterexample. -/
def c6x : CLO :=
  CanonicalLegalObject.build ⟨id, id⟩ "2.1" "CUSTOMER" "PARTY" "PAY" "the fee" none
    .OBLIGATION [] [] none "The Customer shall pay the fee"

/-- First candidate. -/
def c6a : CLO :=
  CanonicalLegalObject.build ⟨id, id⟩ "2.2" "CUSTOMER" "PARTY" "PAY" "the charge" none
    .OBLIGATION [] [] none "The Customer shall pay the charge"

/-- Second candidate, tied with the first at similarity 0.9. -/
def c6b : CLO :=
  CanonicalLegalObject.build ⟨id, id⟩ "2.3" "CUSTOMER" "PARTY" "PAY" "the cost" none
    .OBLIGATION [] [] none "The Customer shall pay the cost"

/-- A similarity oracle giving every pair the same score 0.9. -/
def c6sim : String → String → ℚ := fun _ _ => ⟨9, 10, by norm_num, by norm_num⟩

/-- Counterexample to C6 as stated: two candidates attain the same
maximal similarity 0.9 ≥ 0.88, and the tier-2 selection picks the
*last*-encountered one (the update fires on `similarity >=
best_similarity`), not the first as the claim says. -/
theorem C6_counterexample :
    c6sim c6x.original_text c6a.original_text = c6sim c6x.original_text c6b.original_text ∧
    rat_0_88 ≤ c6sim c6x.original_text c6a.original_text ∧
    c6a ≠ c6b ∧
    tier2Select c6sim c6x [c6a, c6b] = some c6b :=
  ⟨rfl, by decide, by decide, by decide⟩

/-- **C6 (amended)**: in the tier-2 similarity fallback, the partner
selected for a hash-unmatched document-1 CLO among the remaining
document-2 candidates is a candidate with similarity at or above the
fixed 0.88 threshold that attains the maximum similarity, and when
several candidates attain the same maximal similarity the tie is broken
in favor of the *last*-encountered maximum in candidate iteration
order; when no candidate reaches the threshold, none is selected. -/
theorem C6_amended (sim : String → String → ℚ) (x : CLO) (cands : List CLO) :
    (∀ c, tier2Select sim x cands = some c →
      c ∈ cands ∧ rat_0_88 ≤ sim x.original_text c.original_text ∧
      (∀ d ∈ cands, sim x.original_text d.original_text ≤ sim x.original_text c.original_text) ∧
      ∃ l r, cands = l ++ c :: r ∧
        ∀ d ∈ r, sim x.original_text d.original_text < sim x.original_text c.original_text) ∧
    (tier2Select sim x cands = none →
      ∀ d ∈ cands, sim x.original_text d.original_text < rat_0_88) := by
  constructor
  · intro c hc
    rcases tier2_fold_main sim x cands (rat_0_88, none) with ⟨heq, _⟩ |
      ⟨c', l, r, hres, hge, hsplit, hrest⟩
    · rw [tier2Select, tier2Scan, heq] at hc
      cases hc
    · rw [tier2Select, tier2Scan, hres] at hc
      obtain rfl : c' = c := by simpa using hc
      refine ⟨by rw [hsplit]; exact List.mem_append.mpr (Or.inr (List.mem_cons_self _ _)),
        hge, ?_, l, r, hsplit, hrest⟩
      intro d hd
      have hb := tier2_fold_bound sim x cands (rat_0_88, none) d hd
      rw [hres] at hb
      exact hb
  · intro hnone d hd
    rcases tier2_fold_main sim x cands (rat_0_88, none) with ⟨heq, hall⟩ |
      ⟨c', l, r, hres, _, _, _⟩
    · exact hall d hd
    · rw [tier2Select, tier2Scan, hres] at hnone
      cases hnone

/-- Witness for C6 (amended) at the concrete tied candidates: the
selected partner is in the pool, meets the threshold, and is maximal. -/
theorem C6_amended_witness :
    c6b ∈ [c6a, c6b] ∧ rat_0_88 ≤ c6sim c6x.original_text c6b.original_text ∧
      ∀ d ∈ [c6a, c6b],
        c6sim c6x.original_text d.original_text ≤ c6sim c6x.original_text c6b.original_text :=
  have h := (C6_amended c6sim c6x [c6a, c6b]).1 c6b (by decide)
  ⟨h.1, h.2.1, h.2.2.1⟩

/-! ### Claim C8 -/

/-- C8 counterexample document: a single >20-char clause string stored
as a *list element* (not as a dict value). -/
def c8tree : Tree :=
  .dict [("clauses", .node [.str "The Customer shall pay the invoice amount within 30 days"])]

/-- A clause extractor that accepts every string it is given. -/
def c8dummy (s p : String) : Option CLO :=
  some (CanonicalLegalObject.build ⟨id, id⟩ p "CUSTOMER" "PARTY" "PAY" "the fee" none
    .OBLIGATION [] [] none s)

/-- Counterexample to C8 as stated: the clause string is a list element
longer than 20 chars, its key is not an ignore-key, and the extractor
accepts every string — yet the walker yields nothing, because the
source's `traverse` does nothing on a string that is not a dict value. -/
theorem C8_counterexample :
    ("The Customer shall pay the invoice amount within 30 days" : String).length > 20 ∧
    IGNORE_KEYS.contains "clauses" = false ∧
    (c8dummy "The Customer shall pay the invoice amount within 30 days" "clauses[0]").isSome
      = true ∧
    extract_clos_from_doc c8dummy c8tree = [] :=
  ⟨by decide, by decide, by decide, by decide⟩

/-- **C8 (amended)**: the clause walker passes to the clause filter
exactly the string leaves that are *dict values* longer than 20
characters and outside every subtree rooted at an ignore-key, with their
paths, in traversal order (`candidateLeaves` is that set, defined from
the spec's words); string leaves occurring as list elements are never
visited. -/
theorem C8_walker_candidates (f : String → String → Option CLO) (doc : Tree) :
    extract_clos_from_doc f doc
      = (candTree doc "").flatMap (fun ps => (f ps.2 ps.1).toList) :=
  extract_clos_eq_cand f doc

/-! ### Claim C9 -/

/-- **C9**: comparison against an empty document tree degenerates as
the spec says: `compare {} D` returns exactly one NEW_CLAUSE change per
deduplicated CLO extracted from `D`; `compare D {}` returns exactly one
REMOVED_CLAUSE per deduplicated CLO; `compare {} {}` returns no
changes.  (In this embedding every function is total, so no exception
can be raised.) -/
theorem C9_empty_document (nlp : ExternalNlp) (d : Digests) (sim : String → String → ℚ)
    (doc : Tree) :
    ((compare nlp d sim (Tree.dict []) doc).changes
      = (deduplicate_clos (extract_clos_from_doc (extract_from_clause nlp d) doc)).map
          newClauseChange) ∧
    ((compare nlp d sim doc (Tree.dict [])).changes
      = (deduplicate_clos (extract_clos_from_doc (extract_from_clause nlp d) doc)).map
          removedClauseChange) ∧
    (compare nlp d sim (Tree.dict []) (Tree.dict [])).changes = [] := by
  have hempty : extract_clos_from_doc (extract_from_clause nlp d) (Tree.dict []) = [] := rfl
  have hdnil : deduplicate_clos [] = [] := rfl
  refine ⟨?_, ?_, ?_⟩
  · show (compareCore sim [] (extract_clos_from_doc (extract_from_clause nlp d) doc)).changes = _
    rw [compareCore_changes, hdnil, match_clos_nil_left]
    simp only [List.map_nil, List.filterMap_nil, List.nil_append, List.append_nil]
    rw [List.filter_eq_self]
    intro ch hch
    rcases List.mem_map.mp hch with ⟨clo, _, hclo⟩
    subst hclo
    simp [newClauseChange]
  · show (compareCore sim (extract_clos_from_doc (extract_from_clause nlp d) doc) []).changes = _
    rw [compareCore_changes, hdnil, match_clos_nil_right]
    simp only [List.map_nil, List.filterMap_nil, List.nil_append, List.append_nil]
    rw [List.filter_eq_self]
    intro ch hch
    rcases List.mem_map.mp hch with ⟨clo, _, hclo⟩
    subst hclo
    simp [removedClauseChange]
  · show (compareCore sim [] []).changes = _
    rw [compareCore_changes, hdnil, match_clos_nil_left]
    simp

/-! ### Claim C10 -/

theorem match_clos_added_sub {sim : String → String → ℚ} {l1 l2 : List CLO} {c : CLO}
    (hc : c ∈ (match_clos sim l1 l2).2.1) : c ∈ l2 := by
  have e : (match_clos sim l1 l2).2.1
      = (tier2Loop sim
          (l1.filter (fun c => !(hashMem (buildMap l2) c.intent_hash)))
          (l2.filter (fun c => !(hashMem (buildMap l1) c.intent_hash)))).2.2 := rfl
  rw [e] at hc
  exact (List.mem_filter.mp ((tier2Loop_mem sim _ _).2.2 c hc)).1

theorem match_clos_removed_sub {sim : String → String → ℚ} {l1 l2 : List CLO} {c : CLO}
    (hc : c ∈ (match_clos sim l1 l2).2.2.1) : c ∈ l1 := by
  have e : (match_clos sim l1 l2).2.2.1
      = (tier2Loop sim
          (l1.filter (fun c => !(hashMem (buildMap l2) c.intent_hash)))
          (l2.filter (fun c => !(hashMem (buildMap l1) c.intent_hash)))).2.1 := rfl
  rw [e] at hc
  exact (List.mem_filter.mp ((tier2Loop_mem sim _ _).2.1 c hc)).1

/-- Confidence of a NEW_CLAUSE/REMOVED_CLAUSE record for a validated
CLO: the low-confidence branch needs an invalid action, which the
validator excludes. -/
theorem newClauseChange_valid {clo : CLO} (h : is_valid_clo clo = true) :
    (newClauseChange clo).confidence = rat_0_8 ∧
      (newClauseChange clo).requires_human_review = false := by
  have ha := is_valid_clo_action h
  have ha' : clo.action ∉ INVALID_ACTIONS := by
    intro hmem
    have hc : INVALID_ACTIONS.contains clo.action = true := List.elem_iff.mpr hmem
    rw [ha] at hc
    cases hc
  constructor
  · show (if clo.party = "PARTY" ∧ INVALID_ACTIONS.contains clo.action then rat_0_3 else rat_0_8)
      = rat_0_8
    rw [if_neg (by simp [ha'])]
  · show decide ((if clo.party = "PARTY" ∧ INVALID_ACTIONS.contains clo.action
        then rat_0_3 else rat_0_8) < rat_0_5) = false
    rw [if_neg (by simp [ha'])]
    decide

theorem removedClauseChange_valid {clo : CLO} (h : is_valid_clo clo = true) :
    (removedClauseChange clo).confidence = rat_0_8 ∧
      (removedClauseChange clo).requires_human_review = false := by
  have ha := is_valid_clo_action h
  have ha' : clo.action ∉ INVALID_ACTIONS := by
    intro hmem
    have hc : INVALID_ACTIONS.contains clo.action = true := List.elem_iff.mpr hmem
    rw [ha] at hc
    cases hc
  constructor
  · show (if clo.party = "PARTY" ∧ INVALID_ACTIONS.contains clo.action then rat_0_3 else rat_0_8)
      = rat_0_8
    rw [if_neg (by simp [ha'])]
  · show decide ((if clo.party = "PARTY" ∧ INVALID_ACTIONS.contains clo.action
        then rat_0_3 else rat_0_8) < rat_0_5) = false
    rw [if_neg (by simp [ha'])]
    decide

/-- **C10**: every NEW_CLAUSE or REMOVED_CLAUSE change in a report
produced by `compare` has confidence exactly 0.8 and does not require
human review: the 0.3 branch needs an action from the non-informative
set, but `is_valid_clo` rejects any such CLO inside
`extract_from_clause`, before it can reach the matcher. -/
theorem C10_new_removed_confidence (nlp : ExternalNlp) (d : Digests)
    (sim : String → String → ℚ) (doc1 doc2 : Tree) :
    ∀ ch ∈ (compare nlp d sim doc1 doc2).changes,
      ch.type = .NEW_CLAUSE ∨ ch.type = .REMOVED_CLAUSE →
      ch.confidence = rat_0_8 ∧ ch.requires_human_review = false := by
  intro ch hch htype
  have hch' : ch ∈ (compareCore sim
      (extract_clos_from_doc (extract_from_clause nlp d) doc1)
      (extract_clos_from_doc (extract_from_clause nlp d) doc2)).changes := hch
  rw [compareCore_changes] at hch'
  have hbig := (List.mem_filter.mp hch').1
  rcases List.mem_append.mp hbig with hbig | hrem
  · rcases List.mem_append.mp hbig with hbig | hadd
    · rcases List.mem_append.mp hbig with hstruct | hmatch
      · rcases List.mem_map.mp hstruct with ⟨p, _, hp⟩
        subst hp
        rcases htype with h | h <;> cases h
      · rcases List.mem_filterMap.mp hmatch with ⟨p, _, hp⟩
        rcases analyze_type hp with ⟨h1, h2, _⟩
        rcases htype with h | h
        · exact absurd h h1
        · exact absurd h h2
    · rcases List.mem_map.mp hadd with ⟨clo, hclo, hp⟩
      subst hp
      have hmem := mem_of_mem_deduplicate (match_clos_added_sub hclo)
      rcases walk_mem hmem with ⟨s, p, hf⟩
      exact newClauseChange_valid (extract_from_clause_valid hf)
  · rcases List.mem_map.mp hrem with ⟨clo, hclo, hp⟩
    subst hp
    have hmem := mem_of_mem_deduplicate (match_clos_removed_sub hclo)
    rcases walk_mem hmem with ⟨s, p, hf⟩
    exact removedClauseChange_valid (extract_from_clause_valid hf)

/-- Concrete analyzer interface for the C10 witness run. -/
def w10nlp : ExternalNlp :=
  { hasVerbOK := fun _ => true
    extractParty := fun _ => "CUSTOMER"
    extractActionRaw := fun _ => "pay"
    extractObject := fun _ _ => "the invoice amount"
    extractConditions := fun _ => []
    extractExceptions := fun _ => []
    extractTimebound := fun _ => none
    extractLawRef := fun _ => none }

/-- Concrete second document for the C10 witness run. -/
def w10doc : Tree :=
  .dict [("payment", .str "The Customer shall pay the invoice amount")]

/-- The CLO extracted from the C10 witness document. -/
def w10clo : CLO :=
  builtCLO w10nlp ⟨id, id⟩ "The Customer shall pay the invoice amount" "payment"

/-- Witness for C10 at a concrete comparison producing a NEW_CLAUSE. -/
theorem C10_witness :
    newClauseChange w10clo
        ∈ (compare w10nlp ⟨id, id⟩ (fun _ _ => 0) (Tree.dict []) w10doc).changes ∧
    (newClauseChange w10clo).type = .NEW_CLAUSE ∧
    (newClauseChange w10clo).confidence = rat_0_8 ∧
    (newClauseChange w10clo).requires_human_review = false :=
  have hm : newClauseChange w10clo
      ∈ (compare w10nlp ⟨id, id⟩ (fun _ _ => 0) (Tree.dict []) w10doc).changes := by decide
  have h := C10_new_removed_confidence w10nlp ⟨id, id⟩ (fun _ _ => 0) (Tree.dict []) w10doc
    (newClauseChange w10clo) hm (Or.inl rfl)
  ⟨hm, rfl, h.1, h.2⟩

/-! ### Claim C2 -/

/-- **C2**: for every pair of CLOs, one per document (surviving
deduplication), that share an intent hash but sit in different sections,
`compare` emits exactly one change referencing either CLO: a
STRUCTURAL_CHANGE with impact LOW and confidence 1.0 (and no human
review); in particular no NEW_CLAUSE, REMOVED_CLAUSE or other change
type mentions them. -/
theorem C2_structural_move (nlp : ExternalNlp) (d : Digests) (sim : String → String → ℚ)
    (doc1 doc2 : Tree) (clo1 clo2 : CLO)
    (h1 : clo1 ∈ deduplicate_clos (extract_clos_from_doc (extract_from_clause nlp d) doc1))
    (h2 : clo2 ∈ deduplicate_clos (extract_clos_from_doc (extract_from_clause nlp d) doc2))
    (hh : clo1.intent_hash = clo2.intent_hash)
    (hs : clo1.section_id ≠ clo2.section_id) :
    ((compare nlp d sim doc1 doc2).changes.filter
        (fun ch => ch.from_clo == some clo1 || ch.to_clo == some clo1 ||
          ch.from_clo == some clo2 || ch.to_clo == some clo2))
      = [structuralChange clo1 clo2] ∧
    (structuralChange clo1 clo2).type = .STRUCTURAL_CHANGE ∧
    (structuralChange clo1 clo2).impact = .LOW ∧
    (structuralChange clo1 clo2).confidence = 1 ∧
    (structuralChange clo1 clo2).requires_human_review = false := by
  refine ⟨?_, rfl, rfl, rfl, rfl⟩
  have hn1 := nodup_hash_deduplicate (extract_clos_from_doc (extract_from_clause nlp d) doc1)
  have hn2 := nodup_hash_deduplicate (extract_clos_from_doc (extract_from_clause nlp d) doc2)
  unfold compare
  rw [compareCore_changes, match_clos_components sim hn1 hn2]
  dsimp only
  rw [List.filter_filter, List.filter_append, List.filter_append, List.filter_append]
  rw [seg_structural_one hn1 hn2 h1 h2 hh hs,
    seg_matched_nil sim hn1 hn2 h1 h2 hh (Or.inl hs),
    seg_added_nil sim h1 hh, seg_removed_nil sim h2 hh]
  rfl

/-- First document of the C2 witness: one clause at path `3.1`. -/
def w2doc1 : Tree :=
  .dict [("3", .dict [("1", .str "The Customer shall pay the invoice amount")])]

/-- Second document of the C2 witness: the same clause moved to `7.2`. -/
def w2doc2 : Tree :=
  .dict [("7", .dict [("2", .str "The Customer shall pay the invoice amount")])]

/-- The CLO extracted at path `3.1`. -/
def w2clo1 : CLO :=
  builtCLO w10nlp ⟨id, id⟩ "The Customer shall pay the invoice amount" "3.1"

/-- The CLO extracted at path `7.2`. -/
def w2clo2 : CLO :=
  builtCLO w10nlp ⟨id, id⟩ "The Customer shall pay the invoice amount" "7.2"

/-- Witness for C2 at a concrete renumbered clause. -/
theorem C2_witness :
    w2clo1.intent_hash = w2clo2.intent_hash ∧ w2clo1.section_id ≠ w2clo2.section_id ∧
    ((compare w10nlp ⟨id, id⟩ (fun _ _ => 0) w2doc1 w2doc2).changes.filter
        (fun ch => ch.from_clo == some w2clo1 || ch.to_clo == some w2clo1 ||
          ch.from_clo == some w2clo2 || ch.to_clo == some w2clo2))
      = [structuralChange w2clo1 w2clo2] :=
  have hm1 : w2clo1 ∈ deduplicate_clos
      (extract_clos_from_doc (extract_from_clause w10nlp ⟨id, id⟩) w2doc1) := by decide
  have hm2 : w2clo2 ∈ deduplicate_clos
      (extract_clos_from_doc (extract_from_clause w10nlp ⟨id, id⟩) w2doc2) := by decide
  ⟨by decide, by decide,
    (C2_structural_move w10nlp ⟨id, id⟩ (fun _ _ => 0) w2doc1 w2doc2 w2clo1 w2clo2
      hm1 hm2 (by decide) (by decide)).1⟩

/-! ### Claim C1 -/

/-- **C1**: a matched CLO pair with identical intent hash but different
original text is classified LANGUAGE_EQUIVALENT (impact NONE) and is
excluded from the report's change list: no change of any type in the
final report references either CLO of the pair, so the pair contributes
0 to `material_changes`. -/
theorem C1_language_equivalent (nlp : ExternalNlp) (d : Digests) (sim : String → String → ℚ)
    (doc1 doc2 : Tree) (clo1 clo2 : CLO)
    (hm : (clo1, clo2) ∈ (match_clos sim
      (deduplicate_clos (extract_clos_from_doc (extract_from_clause nlp d) doc1))
      (deduplicate_clos (extract_clos_from_doc (extract_from_clause nlp d) doc2))).1)
    (hh : clo1.intent_hash = clo2.intent_hash)
    (ht : clo1.original_text ≠ clo2.original_text) :
    analyzeMatchedPair clo1 clo2 = some (languageEquivalentChange clo1 clo2) ∧
    (languageEquivalentChange clo1 clo2).type = .LANGUAGE_EQUIVALENT ∧
    (languageEquivalentChange clo1 clo2).impact = .NONE ∧
    ((compare nlp d sim doc1 doc2).changes.filter
        (fun ch => ch.from_clo == some clo1 || ch.to_clo == some clo1 ||
          ch.from_clo == some clo2 || ch.to_clo == some clo2))
      = [] := by
  have hn1 := nodup_hash_deduplicate (extract_clos_from_doc (extract_from_clause nlp d) doc1)
  have hn2 := nodup_hash_deduplicate (extract_clos_from_doc (extract_from_clause nlp d) doc2)
  rw [match_clos_components sim hn1 hn2] at hm
  dsimp only at hm
  have hmem : clo1 ∈ deduplicate_clos (extract_clos_from_doc (extract_from_clause nlp d) doc1)
      ∧ clo2 ∈ deduplicate_clos (extract_clos_from_doc (extract_from_clause nlp d) doc2)
      ∧ clo1.section_id = clo2.section_id := by
    rcases List.mem_append.mp hm with hp1 | hp2
    · rcases List.mem_filter.mp hp1 with ⟨hpairs, hcond⟩
      rcases tier1PairsOf_mem hpairs with ⟨ha, hb, _⟩
      refine ⟨ha, hb, ?_⟩
      by_contra hne
      simp [hh, hne] at hcond
    · rcases (tier2Loop_mem sim _ _).1 _ hp2 with ⟨hpa, hpb⟩
      rcases unmatchedOf_spec hpa with ⟨_, hnone⟩
      have hb2 := (unmatchedOf_spec hpb).1
      exact absurd hh.symm (hnone clo2 hb2)
  obtain ⟨h1, h2, hsec⟩ := hmem
  have hle : detect_language_equivalence clo1 clo2 = true := by
    unfold detect_language_equivalence
    simp [hh, ht]
  refine ⟨?_, rfl, rfl, ?_⟩
  · unfold analyzeMatchedPair
    rw [if_pos (by simp [hle])]
  · unfold compare
    rw [compareCore_changes, match_clos_components sim hn1 hn2]
    dsimp only
    rw [List.filter_filter, List.filter_append, List.filter_append, List.filter_append]
    rw [seg_structural_nil hn1 hn2 h1 h2 hh hsec,
      seg_matched_nil sim hn1 hn2 h1 h2 hh (Or.inr ht),
      seg_added_nil sim h1 hh, seg_removed_nil sim h2 hh]
    rfl

/-- First document of the C1 witness. -/
def w1doc1 : Tree :=
  .dict [("3", .dict [("1", .str "The Customer shall pay the invoice amount")])]

/-- Second document of the C1 witness: same normalized content at the
same section, reworded. -/
def w1doc2 : Tree :=
  .dict [("3", .dict [("2", .str "The Customer shall settle the invoice amount")])]

/-- The CLO extracted from the first C1 witness document. -/
def w1clo1 : CLO :=
  builtCLO w10nlp ⟨id, id⟩ "The Customer shall pay the invoice amount" "3.1"

/-- The CLO extracted from the second C1 witness document. -/
def w1clo2 : CLO :=
  builtCLO w10nlp ⟨id, id⟩ "The Customer shall settle the invoice amount" "3.2"

/-- Witness for C1 at a concrete reworded pair. -/
theorem C1_witness :
    w1clo1.intent_hash = w1clo2.intent_hash ∧ w1clo1.original_text ≠ w1clo2.original_text ∧
    analyzeMatchedPair w1clo1 w1clo2 = some (languageEquivalentChange w1clo1 w1clo2) ∧
    ((compare w10nlp ⟨id, id⟩ (fun _ _ => 0) w1doc1 w1doc2).changes.filter
        (fun ch => ch.from_clo == some w1clo1 || ch.to_clo == some w1clo1 ||
          ch.from_clo == some w1clo2 || ch.to_clo == some w1clo2))
      = [] :=
  have hm : (w1clo1, w1clo2) ∈ (match_clos (fun _ _ => 0)
      (deduplicate_clos (extract_clos_from_doc (extract_from_clause w10nlp ⟨id, id⟩) w1doc1))
      (deduplicate_clos
        (extract_clos_from_doc (extract_from_clause w10nlp ⟨id, id⟩) w1doc2))).1 := by decide
  have h := C1_language_equivalent w10nlp ⟨id, id⟩ (fun _ _ => 0) w1doc1 w1doc2 w1clo1 w1clo2
    hm (by decide) (by decide)
  ⟨by decide, by decide, h.1, h.2.2.2⟩

end ContractX
